import Mathlib

/-!
Verification development for the ParserYandexMap repository
(`ymaps_excel_export`): a Yandex-Maps search/enrichment/export pipeline.

The Python sources are shallowly embedded: pure functions become Lean
functions on `String`/`List`; network and browser effects are passed in as
explicit oracle arguments; Python exceptions become `Except`/`Option`
results.  Modelling conventions, stated once:

* Python `str.strip()` (and hence `safe_str`) is modelled over the ASCII
  whitespace characters; the embedded strings never contain exotic Unicode
  whitespace.
* The regex `\D`/`\d` classes are modelled over ASCII digits
  (`Char.isDigit`); the embedded inputs contain no non-ASCII digits.
* CPython `float` values are IEEE binary64; the model `PyFloat` uses exact
  rationals for finite values together with round-half-even formatting.
  All concrete inputs appearing in theorems are ones on which the nearest
  binary64 value and the exact rational value round identically at one
  decimal digit.
* Russian field names of the `Company` dataclass are kept verbatim as
  escaped identifiers.
-/

namespace YMaps

/-- ASCII whitespace, as stripped by Python `str.strip()`. -/
def isPySpace (c : Char) : Bool :=
  c = ' ' || c = '\t' || c = '\n' || c = '\r' || c = '\x0b' || c = '\x0c'

/-- Strip leading and trailing whitespace from a character list. -/
def stripChars (l : List Char) : List Char :=
  ((l.dropWhile isPySpace).reverse.dropWhile isPySpace).reverse

/-- `utils.safe_str` applied to a value that is already a string:
`x.strip()`. -/
def safe_str (s : String) : String := String.mk (stripChars s.data)

/-- `utils.pick_n`: truncate to `n` entries and pad with `""` up to `n`. -/
def pick_n (items : List String) (n : Nat) : List String :=
  let t := items.take n
  t ++ List.replicate (n - t.length) ""

/-- `utils.dedup_keep_order`: drop empty entries (after `safe_str`) and
duplicates, keeping first occurrences in order. -/
def dedup_keep_order (items : List String) : List String :=
  (items.foldl
    (fun acc x =>
      let x := safe_str x
      if x = "" || acc.contains x then acc else acc ++ [x])
    [])

/-- Python truthiness-based `x or y` on strings: `y` when `x` is empty. -/
def pyOr (x y : String) : String := if x = "" then y else x

/-! ## The Organization record (`models.Company`)

`models.py` declares the `Company` dataclass with exactly the string
fields below, every one defaulting to `""`.  Field names are kept
verbatim (they double as Excel column names in the source). -/

structure Company where
  ID : String := ""
  «Название» : String := ""
  «Адрес» : String := ""
  «Индекс» : String := ""
  «Долгота» : String := ""
  «Широта» : String := ""
  «Сайт» : String := ""
  «Телефон_1» : String := ""
  «Телефон_2» : String := ""
  «Телефон_3» : String := ""
  Email_1 : String := ""
  Email_2 : String := ""
  Email_3 : String := ""
  «Режим_работы» : String := ""
  «Рейтинг» : String := ""
  «Количество_отзывов» : String := ""
  «Категория_1» : String := ""
  «Категория_2» : String := ""
  «Категория_3» : String := ""
  «Особенности» : String := ""
  uri : String := ""
  «Факс_1» : String := ""
  «Факс_2» : String := ""
  «Факс_3» : String := ""
  «Категории_прочие» : String := ""
  raw_json : String := ""
  deriving Repr, DecidableEq

/-- The declared field (attribute) names of the `Company` dataclass, in
declaration order. -/
def companyFieldNames : List String :=
  ["ID", "Название", "Адрес", "Индекс", "Долгота", "Широта", "Сайт",
   "Телефон_1", "Телефон_2", "Телефон_3",
   "Email_1", "Email_2", "Email_3",
   "Режим_работы", "Рейтинг", "Количество_отзывов",
   "Категория_1", "Категория_2", "Категория_3",
   "Особенности", "uri",
   "Факс_1", "Факс_2", "Факс_3",
   "Категории_прочие", "raw_json"]

/-- `models.Company.as_excel_row`: the serialized output row, a mapping
from Excel column header to field value, in source order.  Every declared
field is emitted; absent data is the empty string (the dataclass default),
never omitted. -/
def as_excel_row (c : Company) : List (String × String) :=
  [("ID", c.ID), ("Название", c.«Название»), ("Адрес", c.«Адрес»),
   ("Индекс", c.«Индекс»), ("Долгота", c.«Долгота»), ("Широта", c.«Широта»),
   ("Сайт", c.«Сайт»),
   ("Телефон 1", c.«Телефон_1»), ("Телефон 2", c.«Телефон_2»),
   ("Телефон 3", c.«Телефон_3»),
   ("Email 1", c.Email_1), ("Email 2", c.Email_2), ("Email 3", c.Email_3),
   ("Режим работы", c.«Режим_работы»), ("Рейтинг", c.«Рейтинг»),
   ("Количество отзывов", c.«Количество_отзывов»),
   ("Категория 1", c.«Категория_1»), ("Категория 2", c.«Категория_2»),
   ("Категория 3", c.«Категория_3»),
   ("Особенности", c.«Особенности»), ("uri", c.uri),
   ("Факс 1", c.«Факс_1»), ("Факс 2", c.«Факс_2»), ("Факс 3", c.«Факс_3»),
   ("Категории (прочие)", c.«Категории_прочие»), ("raw_json", c.raw_json)]

/-- Python `getattr(c, attr)` on a `Company` instance whose attributes are
exactly the declared dataclass fields: reading an undeclared attribute
raises `AttributeError`, modelled as `none`.  (A CPython dataclass would
admit `setattr` of a new attribute, but in this code base every write to
an undeclared name is preceded by a `getattr` of the same name, so the
dynamic-attribute state is unreachable.) -/
def companyGetattr (c : Company) (attr : String) : Option String :=
  if attr = "ID" then some c.ID
  else if attr = "Название" then some c.«Название»
  else if attr = "Адрес" then some c.«Адрес»
  else if attr = "Индекс" then some c.«Индекс»
  else if attr = "Долгота" then some c.«Долгота»
  else if attr = "Широта" then some c.«Широта»
  else if attr = "Сайт" then some c.«Сайт»
  else if attr = "Телефон_1" then some c.«Телефон_1»
  else if attr = "Телефон_2" then some c.«Телефон_2»
  else if attr = "Телефон_3" then some c.«Телефон_3»
  else if attr = "Email_1" then some c.Email_1
  else if attr = "Email_2" then some c.Email_2
  else if attr = "Email_3" then some c.Email_3
  else if attr = "Режим_работы" then some c.«Режим_работы»
  else if attr = "Рейтинг" then some c.«Рейтинг»
  else if attr = "Количество_отзывов" then some c.«Количество_отзывов»
  else if attr = "Категория_1" then some c.«Категория_1»
  else if attr = "Категория_2" then some c.«Категория_2»
  else if attr = "Категория_3" then some c.«Категория_3»
  else if attr = "Особенности" then some c.«Особенности»
  else if attr = "uri" then some c.uri
  else if attr = "Факс_1" then some c.«Факс_1»
  else if attr = "Факс_2" then some c.«Факс_2»
  else if attr = "Факс_3" then some c.«Факс_3»
  else if attr = "Категории_прочие" then some c.«Категории_прочие»
  else if attr = "raw_json" then some c.raw_json
  else none

/-- Python `setattr(c, attr, v)` restricted to the declared fields (see
`companyGetattr` for why the dynamic-attribute case is unreachable). -/
def companySetattr (c : Company) (attr v : String) : Option Company :=
  if attr = "ID" then some { c with ID := v }
  else if attr = "Название" then some { c with «Название» := v }
  else if attr = "Адрес" then some { c with «Адрес» := v }
  else if attr = "Индекс" then some { c with «Индекс» := v }
  else if attr = "Долгота" then some { c with «Долгота» := v }
  else if attr = "Широта" then some { c with «Широта» := v }
  else if attr = "Сайт" then some { c with «Сайт» := v }
  else if attr = "Телефон_1" then some { c with «Телефон_1» := v }
  else if attr = "Телефон_2" then some { c with «Телефон_2» := v }
  else if attr = "Телефон_3" then some { c with «Телефон_3» := v }
  else if attr = "Email_1" then some { c with Email_1 := v }
  else if attr = "Email_2" then some { c with Email_2 := v }
  else if attr = "Email_3" then some { c with Email_3 := v }
  else if attr = "Режим_работы" then some { c with «Режим_работы» := v }
  else if attr = "Рейтинг" then some { c with «Рейтинг» := v }
  else if attr = "Количество_отзывов" then some { c with «Количество_отзывов» := v }
  else if attr = "Категория_1" then some { c with «Категория_1» := v }
  else if attr = "Категория_2" then some { c with «Категория_2» := v }
  else if attr = "Категория_3" then some { c with «Категория_3» := v }
  else if attr = "Особенности" then some { c with «Особенности» := v }
  else if attr = "uri" then some { c with uri := v }
  else if attr = "Факс_1" then some { c with «Факс_1» := v }
  else if attr = "Факс_2" then some { c with «Факс_2» := v }
  else if attr = "Факс_3" then some { c with «Факс_3» := v }
  else if attr = "Категории_прочие" then some { c with «Категории_прочие» := v }
  else if attr = "raw_json" then some { c with raw_json := v }
  else none

/-- `web_enrich.set_if_needed`: write `safe_str value` into field `attr`
unless the new value is empty, or the current value is non-empty and
`overwrite` is off.  Returns the updated record and the 0/1 change count;
an undeclared attribute raises `AttributeError` (the `getattr` fires
first). -/
def set_if_needed (c : Company) (attr value : String) (overwrite : Bool) :
    Except String (Company × Nat) :=
  let val := safe_str value
  if val = "" then .ok (c, 0)
  else
    match companyGetattr c attr with
    | none => .error ("AttributeError: " ++ attr)
    | some cur0 =>
      let cur := safe_str cur0
      if cur ≠ "" && !overwrite then .ok (c, 0)
      else
        match companySetattr c attr val with
        | some c2 => .ok (c2, 1)
        | none => .error ("AttributeError: " ++ attr)

/-! ## Configuration (`config.Settings`)

Only the fields consumed by the embedded components are carried; the
default values are those of `config.py`.  `SLEEP_SEC` is kept as a
rational (only its sign is ever branched on). -/

structure Settings where
  YMAPIKEY : String := ""
  RESULTS_PER_PAGE : Int := 50
  MAX_SKIP : Int := 1000
  SLEEP_SEC : ℚ := 1/2
  MAX_PHONES : Nat := 3
  MAX_EMAILS : Nat := 3
  WEB_FORCE_OVERWRITE : Bool := true
  WEB_MAX_ITEMS : Int := 0
  CLOSE_EXISTING_DEBUG_CHROME : Bool := false
  SELENIUM_KEEP_CHROME_OPEN : Bool := true

/-- `config.Settings.HEADERS` (filled in `__post_init__`): the Excel
column headers, in order. -/
def HEADERS : List String :=
  ["ID", "Название", "Адрес", "Индекс", "Долгота", "Широта", "Сайт",
   "Телефон 1", "Телефон 2", "Телефон 3",
   "Email 1", "Email 2", "Email 3",
   "Режим работы", "Рейтинг", "Количество отзывов",
   "Категория 1", "Категория 2", "Категория 3",
   "Особенности", "uri",
   "Факс 1", "Факс 2", "Факс 3",
   "Категории (прочие)", "raw_json"]

/-! ## The merge phase of `web_enrich.enrich_company_from_web`
(lines 435-455): a sequence of `set_if_needed` calls accumulating the
`changed` counter.  The contact columns are read off `pick_n`-padded
lists at fixed indices 0..2 (an out-of-range index raises `IndexError`,
faithful to the Python subscripts `tels[0..2]`/`emails[0..2]`). -/

/-- Run a sequence of `(attr, value, overwrite)` merge steps, threading
the record and summing the 0/1 change counts; the first
`AttributeError`/failure aborts, as an uncaught Python exception would. -/
def applyFieldSteps (c : Company) :
    List (String × String × Bool) → Except String (Company × Nat)
  | [] => .ok (c, 0)
  | (attr, v, ow) :: rest => do
    let (c1, k) ← set_if_needed c attr v ow
    let (c2, n) ← applyFieldSteps c1 rest
    .ok (c2, k + n)

/-- The `changed += set_if_needed(...)` block of
`enrich_company_from_web`: site, phones, emails, rating, rating count
(the `Количество_оценок` write marked `НОВОЕ` in the source), review
count — all at the run's configured overwrite policy — and finally
opening hours at `overwrite=False`. -/
def enrich_apply_fields (st : Settings) (c : Company) (site : String)
    (tels emails : List String)
    (rating_value rating_count review_count worktime : String) :
    Except String (Company × Nat) :=
  let ow := st.WEB_FORCE_OVERWRITE
  match pick_n tels st.MAX_PHONES, pick_n emails st.MAX_EMAILS with
  | t1 :: t2 :: t3 :: _, e1 :: e2 :: e3 :: _ =>
    applyFieldSteps c
      [("Сайт", site, ow),
       ("Телефон_1", t1, ow), ("Телефон_2", t2, ow), ("Телефон_3", t3, ow),
       ("Email_1", e1, ow), ("Email_2", e2, ow), ("Email_3", e3, ow),
       ("Рейтинг", rating_value, ow),
       ("Количество_оценок", rating_count, ow),
       ("Количество_отзывов", review_count, ow),
       ("Режим_работы", worktime, false)]
  | _, _ => .error "IndexError"

/-! ## Phone normalization (`web_enrich.normalize_phone_ru`) -/

/-- National trunk-prefix rule: an 11-digit number starting with `8` is
rewritten to start with `7`. -/
def phoneStep1 (ds : List Char) : List Char :=
  if ds.length = 11 && ds.head? = some '8' then '7' :: ds.tail else ds

/-- Bare-subscriber rule: a 10-digit number gets the country code `7`
prefixed. -/
def phoneStep2 (ds : List Char) : List Char :=
  if ds.length = 10 then '7' :: ds else ds

/-- `web_enrich.normalize_phone_ru`: collapse to digits, apply the two
rewrite rules, and render `+7XXXXXXXXXX` when the result is an 11-digit
number starting with `7`; anything else is returned as the stripped
input. -/
def normalize_phone_ru (s0 : String) : String :=
  let s := safe_str s0
  if s = "" then ""
  else
    let ds := phoneStep2 (phoneStep1 (s.data.filter Char.isDigit))
    if ds.length = 11 && ds.head? = some '7' then "+" ++ String.mk ds else s

theorem stripChars_eq_self_of_not_space {l : List Char}
    (h : ∀ c ∈ l, isPySpace c = false) : stripChars l = l := by
  have hnd : ∀ c ∈ l, ¬ (isPySpace c = true) := by
    intro c hc
    simp [h c hc]
  have h1 : l.dropWhile isPySpace = l := by
    cases l with
    | nil => rfl
    | cons a t =>
      rw [List.dropWhile_cons_of_neg]
      exact hnd a (by simp)
  have h2 : l.reverse.dropWhile isPySpace = l.reverse := by
    cases hr : l.reverse with
    | nil => rfl
    | cons a t =>
      rw [List.dropWhile_cons_of_neg]
      apply hnd
      have : a ∈ l.reverse := by rw [hr]; simp
      simpa using this
  simp [stripChars, h1, h2]

theorem isPySpace_eq_false_of_isDigit {c : Char} (h : c.isDigit) :
    isPySpace c = false := by
  by_contra hne
  have hsp : isPySpace c = true := by
    cases hb : isPySpace c
    · exact absurd hb hne
    · rfl
  unfold isPySpace at hsp
  simp only [Bool.or_eq_true, decide_eq_true_eq] at hsp
  obtain ((((h1 | h1) | h1) | h1) | h1) | h1 := hsp <;>
    (subst h1; exact absurd h (by decide))

theorem stripChars_eq_self_of_digits {l : List Char}
    (h : ∀ c ∈ l, c.isDigit) : stripChars l = l :=
  stripChars_eq_self_of_not_space
    (fun c hc => isPySpace_eq_false_of_isDigit (h c hc))

theorem safe_str_eq_self_of_digits {s : String}
    (h : ∀ c ∈ s.data, c.isDigit) : safe_str s = s := by
  simp only [safe_str, stripChars_eq_self_of_digits h]

/-- C10, general clause for bare subscriber numbers: a string of exactly
10 (ASCII) digits gets the country code prefixed. -/
theorem normalize_phone_bare10 (t : String) (hlen : t.data.length = 10)
    (hdig : ∀ c ∈ t.data, c.isDigit) :
    normalize_phone_ru t = "+7" ++ t := by
  have hs : safe_str t = t := safe_str_eq_self_of_digits hdig
  have hf : t.data.filter Char.isDigit = t.data :=
    List.filter_eq_self.mpr (by intro a ha; exact hdig a ha)
  have hne : ¬ (t = "") := by
    intro h0
    rw [h0] at hlen
    simp [String.data] at hlen
  have hstep1 : phoneStep1 t.data = t.data := by
    unfold phoneStep1
    rw [hlen]
    simp
  have hstep2 : phoneStep2 t.data = '7' :: t.data := by
    unfold phoneStep2
    rw [hlen]
    simp
  unfold normalize_phone_ru
  simp only [hs, if_neg hne, hf, hstep1, hstep2]
  have hcond : (('7' :: t.data).length = 11 && ('7' :: t.data).head? = some '7') = true := by
    simp [hlen]
  rw [if_pos hcond]
  apply String.ext
  simp [String.data_append]

/-- Canonical numbers pass through `normalize_phone_ru` unchanged. -/
theorem normalize_phone_canonical (t : String) (hlen : t.data.length = 10)
    (hdig : ∀ c ∈ t.data, c.isDigit) :
    normalize_phone_ru ("+7" ++ t) = "+7" ++ t := by
  have hdata : ("+7" ++ t).data = '+' :: '7' :: t.data := by
    simp [String.data_append]
  have hs : safe_str ("+7" ++ t) = "+7" ++ t := by
    apply String.ext
    simp only [safe_str]
    rw [hdata]
    apply stripChars_eq_self_of_not_space
    intro c hc
    simp only [List.mem_cons] at hc
    rcases hc with h | h | h
    · subst h; decide
    · subst h; decide
    · exact isPySpace_eq_false_of_isDigit (hdig c h)
  have hne : ¬ ("+7" ++ t = "") := by
    intro h0
    have := congrArg String.data h0
    rw [hdata] at this
    simp at this
  have hf : ("+7" ++ t).data.filter Char.isDigit = '7' :: t.data := by
    have hrest : t.data.filter Char.isDigit = t.data :=
      List.filter_eq_self.mpr (by intro a ha; exact hdig a ha)
    rw [hdata, List.filter_cons_of_neg (by decide),
      List.filter_cons_of_pos (by decide), hrest]
  have hstep1 : phoneStep1 ('7' :: t.data) = '7' :: t.data := by
    unfold phoneStep1
    simp
  have hstep2 : phoneStep2 ('7' :: t.data) = '7' :: t.data := by
    unfold phoneStep2
    simp [hlen]
  unfold normalize_phone_ru
  simp only [hs, if_neg hne, hf, hstep1, hstep2]
  have hcond : (('7' :: t.data).length = 11 && ('7' :: t.data).head? = some '7') = true := by
    simp [hlen]
  rw [if_pos hcond]
  apply String.ext
  rw [hdata]
  simp [String.data_append]

/-- C10: phone normalization collapses its input to digits; the national
`8`-prefixed 11-digit form maps to the `+7` country-code form, a bare
10-digit subscriber number gets the country code prefixed, and an
already-canonical `+7`-number passes through unchanged. -/
theorem c10_phone_normalization :
    normalize_phone_ru "89991112233" = "+79991112233" ∧
    (∀ t : String, t.data.length = 10 → (∀ c ∈ t.data, c.isDigit) →
      normalize_phone_ru t = "+7" ++ t ∧
      normalize_phone_ru ("+7" ++ t) = "+7" ++ t) := by
  refine ⟨by decide, fun t hlen hdig => ⟨?_, ?_⟩⟩
  · exact normalize_phone_bare10 t hlen hdig
  · exact normalize_phone_canonical t hlen hdig

/-- Witness for C10 at the concrete subscriber number `9991112233`. -/
theorem c10_phone_normalization_witness :
    normalize_phone_ru "9991112233" = "+79991112233" ∧
    normalize_phone_ru "+79991112233" = "+79991112233" := by
  have h := c10_phone_normalization.2 "9991112233" (by decide) (by decide)
  exact ⟨h.1, h.2⟩

/-! ## Merge-policy lemmas (C4) -/

theorem set_if_needed_empty_value (c : Company) (attr value : String)
    (ow : Bool) (h : safe_str value = "") :
    set_if_needed c attr value ow = .ok (c, 0) := by
  simp only [set_if_needed]
  rw [if_pos h]

theorem set_if_needed_fillonly_keeps (c : Company) (attr value cur : String)
    (hget : companyGetattr c attr = some cur) (hcur : safe_str cur ≠ "") :
    set_if_needed c attr value false = .ok (c, 0) := by
  simp only [set_if_needed]
  by_cases hv : safe_str value = ""
  · rw [if_pos hv]
  · rw [if_neg hv, hget]
    simp [hcur]

theorem except_bind_ok {α β ε : Type} (a : α) (f : α → Except ε β) :
    (Except.ok a >>= f) = f a := rfl

theorem except_bind_error {α β ε : Type} (e : ε) (f : α → Except ε β) :
    ((Except.error e : Except ε α) >>= f) = Except.error e := rfl

theorem except_map_ok {α β ε : Type} (a : α) (f : α → β) :
    ((Except.ok a : Except ε α).map f) = Except.ok (f a) := rfl

theorem except_map_error {α β ε : Type} (e : ε) (f : α → β) :
    ((Except.error e : Except ε α).map f) = Except.error e := rfl

theorem companySetattr_eq_none {c : Company} {attr v : String}
    (hmem : attr ∉ companyFieldNames) : companySetattr c attr v = none := by
  simp only [companyFieldNames, List.mem_cons, List.not_mem_nil, or_false,
    not_or] at hmem
  obtain ⟨q01, q02, q03, q04, q05, q06, q07, q08, q09, q10, q11, q12, q13,
    q14, q15, q16, q17, q18, q19, q20, q21, q22, q23, q24, q25, q26⟩ := hmem
  unfold companySetattr
  rw [if_neg q01, if_neg q02, if_neg q03, if_neg q04, if_neg q05, if_neg q06,
    if_neg q07, if_neg q08, if_neg q09, if_neg q10, if_neg q11, if_neg q12,
    if_neg q13, if_neg q14, if_neg q15, if_neg q16, if_neg q17, if_neg q18,
    if_neg q19, if_neg q20, if_neg q21, if_neg q22, if_neg q23, if_neg q24,
    if_neg q25, if_neg q26]

theorem companySetattr_preserves_worktime {c c2 : Company} {attr v : String}
    (hne : attr ≠ "Режим_работы") (h : companySetattr c attr v = some c2) :
    c2.«Режим_работы» = c.«Режим_работы» := by
  by_cases hmem : attr ∈ companyFieldNames
  case neg =>
    rw [companySetattr_eq_none hmem] at h
    exact Option.noConfusion h
  case pos =>
    fin_cases hmem
    all_goals
      first
        | exact absurd rfl hne
        | (injection (show some _ = some c2 from h) with h2; subst h2; rfl)

theorem set_if_needed_preserves_worktime {c c2 : Company}
    {attr v : String} {ow : Bool} {k : Nat}
    (hne : attr ≠ "Режим_работы")
    (h : set_if_needed c attr v ow = .ok (c2, k)) :
    c2.«Режим_работы» = c.«Режим_работы» := by
  simp only [set_if_needed] at h
  split at h
  · simp only [Except.ok.injEq, Prod.mk.injEq] at h
    rw [← h.1]
  · split at h
    · exact Except.noConfusion h
    next cur0 hget =>
      split at h
      · simp only [Except.ok.injEq, Prod.mk.injEq] at h
        rw [← h.1]
      · split at h
        next cs hset =>
          simp only [Except.ok.injEq, Prod.mk.injEq] at h
          rw [← h.1]
          exact companySetattr_preserves_worktime hne hset
        next hset => exact Except.noConfusion h

theorem applyFieldSteps_preserves_worktime
    {steps : List (String × String × Bool)} {c c2 : Company} {n : Nat}
    (hsteps : ∀ s ∈ steps, s.1 ≠ "Режим_работы")
    (h : applyFieldSteps c steps = .ok (c2, n)) :
    c2.«Режим_работы» = c.«Режим_работы» := by
  induction steps generalizing c n with
  | nil =>
    simp only [applyFieldSteps, Except.ok.injEq, Prod.mk.injEq] at h
    rw [← h.1]
  | cons s rest ih =>
    obtain ⟨attr, v, ow⟩ := s
    have hhead : attr ≠ "Режим_работы" := hsteps (attr, v, ow) (by simp)
    have htail : ∀ s ∈ rest, s.1 ≠ "Режим_работы" :=
      fun s hs => hsteps s (by simp [hs])
    cases h1 : set_if_needed c attr v ow with
    | error e =>
      simp only [applyFieldSteps, h1, except_bind_error] at h
      exact Except.noConfusion h
    | ok p =>
      obtain ⟨c1, k⟩ := p
      simp only [applyFieldSteps, h1, except_bind_ok] at h
      cases h2 : applyFieldSteps c1 rest with
      | error e =>
        simp only [h2, except_bind_error] at h
        exact Except.noConfusion h
      | ok q =>
        obtain ⟨cq, m⟩ := q
        simp only [h2, except_bind_ok, Except.ok.injEq, Prod.mk.injEq] at h
        obtain ⟨hc, hn⟩ := h
        subst hc
        exact (ih htail h2).trans (set_if_needed_preserves_worktime hhead h1)

theorem applyFieldSteps_append (c : Company)
    (l1 l2 : List (String × String × Bool)) :
    applyFieldSteps c (l1 ++ l2) =
      applyFieldSteps c l1 >>= fun p =>
        applyFieldSteps p.1 l2 >>= fun q => Except.ok (q.1, p.2 + q.2) := by
  induction l1 generalizing c with
  | nil =>
    simp only [List.nil_append, applyFieldSteps, except_bind_ok]
    cases h : applyFieldSteps c l2 with
    | error e => simp [h, except_bind_error]
    | ok q =>
      obtain ⟨cq, m⟩ := q
      simp [h, except_bind_ok]
  | cons s rest ih =>
    obtain ⟨attr, v, ow⟩ := s
    cases h1 : set_if_needed c attr v ow with
    | error e =>
      simp only [List.cons_append, applyFieldSteps, h1, except_bind_error]
    | ok p =>
      obtain ⟨c1, k⟩ := p
      simp only [List.cons_append, applyFieldSteps, h1, except_bind_ok,
        List.append_eq]
      rw [ih c1]
      cases h2 : applyFieldSteps c1 rest with
      | error e => simp only [h2, except_bind_error]
      | ok q =>
        obtain ⟨cq, m⟩ := q
        simp only [h2, except_bind_ok]
        cases h3 : applyFieldSteps cq l2 with
        | error e => simp only [h3, except_bind_error]
        | ok r =>
          obtain ⟨cr, j⟩ := r
          simp only [h3, except_bind_ok, Nat.add_assoc]

theorem set_if_needed_worktime_fillonly (c : Company) (wt : String) :
    set_if_needed c "Режим_работы" wt false =
      (if safe_str wt = "" then .ok (c, 0)
       else if safe_str c.«Режим_работы» ≠ "" then .ok (c, 0)
       else .ok ({ c with «Режим_работы» := safe_str wt }, 1)) := by
  simp only [set_if_needed]
  have hg : companyGetattr c "Режим_работы" = some c.«Режим_работы» := rfl
  have hs : companySetattr c "Режим_работы" (safe_str wt) =
      some { c with «Режим_работы» := safe_str wt } := rfl
  rw [hg, hs]
  by_cases hw : safe_str wt = ""
  · rw [if_pos hw, if_pos hw]
  · rw [if_neg hw, if_neg hw]
    by_cases hcur : safe_str c.«Режим_работы» ≠ ""
    · rw [if_pos hcur]
      simp [hcur]
    · rw [if_neg hcur]
      simp [hcur]

/-- C4: under fill-only a non-empty current value is never overwritten;
under overwrite a non-empty new value always replaces; an empty new value
changes nothing under either policy; and the opening-hours field is merged
fill-only by `enrich_company_from_web` regardless of the configured
`WEB_FORCE_OVERWRITE` policy. -/
theorem c4_merge_policies :
    (∀ (c : Company) (attr value cur : String),
      companyGetattr c attr = some cur → safe_str cur ≠ "" →
      set_if_needed c attr value false = .ok (c, 0)) ∧
    (∀ attr ∈ companyFieldNames, ∀ (c : Company) (value : String),
      safe_str value ≠ "" →
      (set_if_needed c attr value true).map
          (fun p => (companyGetattr p.1 attr, p.2)) =
        .ok (some (safe_str value), 1)) ∧
    (∀ (c : Company) (attr value : String) (ow : Bool),
      safe_str value = "" → set_if_needed c attr value ow = .ok (c, 0)) ∧
    (∀ (st : Settings) (c : Company) (site : String)
        (tels emails : List String) (rv rc vw wt : String)
        (c2 : Company) (n : Nat),
      enrich_apply_fields st c site tels emails rv rc vw wt = .ok (c2, n) →
      c2.«Режим_работы» =
        (if safe_str wt = "" then c.«Режим_работы»
         else if safe_str c.«Режим_работы» ≠ "" then c.«Режим_работы»
         else safe_str wt)) := by
  refine ⟨set_if_needed_fillonly_keeps, ?_, set_if_needed_empty_value, ?_⟩
  · intro attr hmem c value hval
    fin_cases hmem <;>
      simp [set_if_needed, hval, companyGetattr, companySetattr,
        Bool.and_false, Except.map]
  · intro st c site tels emails rv rc vw wt c2 n h
    unfold enrich_apply_fields at h
    rcases hp : pick_n tels st.MAX_PHONES with _ | ⟨t1, _ | ⟨t2, _ | ⟨t3, tr⟩⟩⟩ <;>
      rcases he : pick_n emails st.MAX_EMAILS with _ | ⟨e1, _ | ⟨e2, _ | ⟨e3, er⟩⟩⟩ <;>
      rw [hp, he] at h <;>
      dsimp only at h
    all_goals try exact Except.noConfusion h
    have hsplit :
        ([("Сайт", site, st.WEB_FORCE_OVERWRITE),
          ("Телефон_1", t1, st.WEB_FORCE_OVERWRITE),
          ("Телефон_2", t2, st.WEB_FORCE_OVERWRITE),
          ("Телефон_3", t3, st.WEB_FORCE_OVERWRITE),
          ("Email_1", e1, st.WEB_FORCE_OVERWRITE),
          ("Email_2", e2, st.WEB_FORCE_OVERWRITE),
          ("Email_3", e3, st.WEB_FORCE_OVERWRITE),
          ("Рейтинг", rv, st.WEB_FORCE_OVERWRITE),
          ("Количество_оценок", rc, st.WEB_FORCE_OVERWRITE),
          ("Количество_отзывов", vw, st.WEB_FORCE_OVERWRITE),
          ("Режим_работы", wt, false)] :
          List (String × String × Bool)) =
        [("Сайт", site, st.WEB_FORCE_OVERWRITE),
          ("Телефон_1", t1, st.WEB_FORCE_OVERWRITE),
          ("Телефон_2", t2, st.WEB_FORCE_OVERWRITE),
          ("Телефон_3", t3, st.WEB_FORCE_OVERWRITE),
          ("Email_1", e1, st.WEB_FORCE_OVERWRITE),
          ("Email_2", e2, st.WEB_FORCE_OVERWRITE),
          ("Email_3", e3, st.WEB_FORCE_OVERWRITE),
          ("Рейтинг", rv, st.WEB_FORCE_OVERWRITE),
          ("Количество_оценок", rc, st.WEB_FORCE_OVERWRITE),
          ("Количество_отзывов", vw, st.WEB_FORCE_OVERWRITE)] ++
        [("Режим_работы", wt, false)] := rfl
    rw [hsplit] at h
    clear hsplit
    generalize hL :
      ([("Сайт", site, st.WEB_FORCE_OVERWRITE),
        ("Телефон_1", t1, st.WEB_FORCE_OVERWRITE),
        ("Телефон_2", t2, st.WEB_FORCE_OVERWRITE),
        ("Телефон_3", t3, st.WEB_FORCE_OVERWRITE),
        ("Email_1", e1, st.WEB_FORCE_OVERWRITE),
        ("Email_2", e2, st.WEB_FORCE_OVERWRITE),
        ("Email_3", e3, st.WEB_FORCE_OVERWRITE),
        ("Рейтинг", rv, st.WEB_FORCE_OVERWRITE),
        ("Количество_оценок", rc, st.WEB_FORCE_OVERWRITE),
        ("Количество_отзывов", vw, st.WEB_FORCE_OVERWRITE)] :
        List (String × String × Bool)) = L at h
    have hst : ∀ s ∈ L, s.1 ≠ "Режим_работы" := by
      rw [← hL]
      intro s hs
      simp only [List.mem_cons, List.not_mem_nil, or_false] at hs
      rcases hs with rfl | rfl | rfl | rfl | rfl | rfl | rfl | rfl | rfl | rfl <;>
        simp
    rw [applyFieldSteps_append] at h
    cases hA : applyFieldSteps c L with
    | error e =>
      rw [hA, except_bind_error] at h
      exact Except.noConfusion h
    | ok p =>
      obtain ⟨c1, k⟩ := p
      have hpres : c1.«Режим_работы» = c.«Режим_работы» :=
        applyFieldSteps_preserves_worktime hst hA
      simp only [hA, except_bind_ok, applyFieldSteps,
        set_if_needed_worktime_fillonly, hpres] at h
      by_cases hw : safe_str wt = ""
      · rw [if_pos hw, except_bind_ok, except_bind_ok] at h
        simp only [Except.ok.injEq, Prod.mk.injEq] at h
        rw [if_pos hw, ← h.1, hpres]
      · rw [if_neg hw] at h
        by_cases hcur : safe_str c.«Режим_работы» ≠ ""
        · rw [if_pos hcur, except_bind_ok, except_bind_ok] at h
          simp only [Except.ok.injEq, Prod.mk.injEq] at h
          rw [if_neg hw, if_pos hcur, ← h.1, hpres]
        · rw [if_neg hcur, except_bind_ok, except_bind_ok] at h
          simp only [Except.ok.injEq, Prod.mk.injEq] at h
          rw [if_neg hw, if_neg hcur, ← h.1]

/-- Witness for C4: fill-only keeps a non-empty site; overwrite replaces
it; an empty new value is a no-op; and a non-empty opening-hours value
does not replace the existing one even with `WEB_FORCE_OVERWRITE = true`
(the default). -/
theorem c4_merge_policies_witness :
    set_if_needed { «Сайт» := "a" } "Сайт" "b" false =
      .ok ({ «Сайт» := "a" }, 0) ∧
    (set_if_needed ({} : Company) "Сайт" "b" true).map
        (fun p => (companyGetattr p.1 "Сайт", p.2)) =
      .ok (some (safe_str "b"), 1) ∧
    set_if_needed { «Сайт» := "a" } "Сайт" "" true = .ok ({ «Сайт» := "a" }, 0) ∧
    ({ «Режим_работы» := "пн" } : Company).«Режим_работы» =
      (if safe_str "вт" = "" then ("пн" : String)
       else if safe_str ("пн" : String) ≠ "" then "пн"
       else safe_str "вт") := by
  refine ⟨?_, ?_, ?_, ?_⟩
  · exact c4_merge_policies.1 { «Сайт» := "a" } "Сайт" "b" "a" rfl (by decide)
  · exact c4_merge_policies.2.1 "Сайт" (by decide) {} "b" (by decide)
  · exact c4_merge_policies.2.2.1 { «Сайт» := "a" } "Сайт" "" true (by decide)
  · exact c4_merge_policies.2.2.2 {} { «Режим_работы» := "пн" } "" [] [] ""
      "" "" "вт" { «Режим_работы» := "пн" } 0 (by rfl)

/-! ## C3: the rating-count field of the record -/

/-- C3 context: the record does serialize every declared field (in order,
absent data as the empty string), and review count is declared; but the
rating-count attribute `Количество_оценок` written by the enrichment
merge is not a declared field of `Company`, so a non-empty extracted
rating count makes the merge raise `AttributeError` instead of storing
the value. -/
theorem c3_rating_count_field_missing :
    (∀ c : Company, (as_excel_row c).map Prod.fst = HEADERS) ∧
    "Количество_отзывов" ∈ companyFieldNames ∧
    "Количество_оценок" ∉ companyFieldNames ∧
    (∀ c : Company, companyGetattr c "Количество_оценок" = none) ∧
    enrich_apply_fields {} {} "" [] [] "" "5" "" "" =
      .error "AttributeError: Количество_оценок" := by
  refine ⟨fun c => rfl, by decide, by decide, fun c => rfl, by rfl⟩

/-! ## The search client (`yandex_api.search_bbox`, `yandex_api.fetch_by_uri`)

The network is an oracle `Nat → Except String (List α)`: the result of the
`k`-th invocation of `_get_json_with_retries` (one page request, with its
internal HTTP retries folded in), `Except.error` being the exception after
exhausted retries or a fatal 4xx.  Feature-to-record conversion
(`company_from_feature` together with the `isinstance(f, dict)` guard) is
passed as `toCompany : α → Option Company`, `none` covering both a
non-dict feature and a conversion returning `None`; the pagination loop of
`search_bbox` (lines 380-432) is transcribed around these two.  The page
metadata dict is modelled by its `stopped_by` entry (plus presence: the
empty-key early return hands back a bare `{}`). -/

/-- `yandex_api.API_MAX_SKIP`. -/
def API_MAX_SKIP : Int := 1000

/-- `max_total` of `search_bbox`: `st.MAX_SKIP if st.MAX_SKIP > 0 else 10**9`. -/
def maxTotalEff (st : Settings) : Int :=
  if st.MAX_SKIP > 0 then st.MAX_SKIP else 10 ^ 9

/-- `page_size` of `search_bbox`, clamped to `MAX_SKIP` when positive. -/
def pageSizeEff (st : Settings) : Int :=
  if st.MAX_SKIP > 0 && st.RESULTS_PER_PAGE > st.MAX_SKIP then st.MAX_SKIP
  else st.RESULTS_PER_PAGE

/-- The per-page row loop of `search_bbox` (lines 400-412): convert each
feature, drop conversion failures, empty identifiers and identifiers
already seen, and accumulate the seen-set. -/
def collectRows {α : Type} (toCompany : α → Option Company)
    (seen : List String) : List α → List Company × List String
  | [] => ([], seen)
  | f :: rest =>
    match toCompany f with
    | none => collectRows toCompany seen rest
    | some c =>
      if c.ID = "" then collectRows toCompany seen rest
      else if c.ID ∈ seen then collectRows toCompany seen rest
      else
        let p := collectRows toCompany (seen ++ [c.ID]) rest
        (c :: p.1, p.2)

/-- Mutable state of the `search_bbox` pagination loop, plus counters for
the observable effects (page requests issued, inter-page sleeps). -/
structure SState where
  out : List Company
  seen : List String
  skip : Int
  reqs : Nat
  sleeps : Nat
  err : String
  deriving Repr, DecidableEq

/-- The `while skip <= API_MAX_SKIP and len(out) < max_total` loop of
`search_bbox`, fuel-indexed (the Python loop can fail to terminate only
for non-positive page sizes against a pathological server; every theorem
supplies ample fuel). -/
def searchLoop {α : Type} (st : Settings)
    (oracle : Nat → Except String (List α))
    (toCompany : α → Option Company) : Nat → SState → SState
  | 0, s => s
  | fuel + 1, s =>
    if s.skip ≤ API_MAX_SKIP ∧ (s.out.length : Int) < maxTotalEff st then
      let cur : Int := min (pageSizeEff st) (maxTotalEff st - s.out.length)
      match oracle s.reqs with
      | .error e => { s with err := e, reqs := s.reqs + 1 }
      | .ok features =>
        if features.isEmpty then { s with reqs := s.reqs + 1 }
        else
          let p := collectRows toCompany s.seen features
          if (features.length : Int) < cur then
            { s with out := s.out ++ p.1, seen := p.2, reqs := s.reqs + 1 }
          else
            searchLoop st oracle toCompany fuel
              { out := s.out ++ p.1, seen := p.2, skip := s.skip + cur,
                reqs := s.reqs + 1, sleeps := s.sleeps + 1, err := s.err }
    else s

/-- Result of `search_bbox`: collected companies, the `stopped_by` page
metadata entry (`none` for the bare `{}` of the empty-key return), the
non-fatal error string, and the request/sleep counters. -/
structure SearchResult where
  companies : List Company
  metaStoppedBy : Option String
  err : String
  reqs : Nat
  sleeps : Nat
  deriving Repr, DecidableEq

/-- `yandex_api.search_bbox`: an empty API key returns
`([], {}, "YMAPIKEY is empty")` before any request; otherwise the
pagination loop runs from `skip = 0` and the final metadata records
whether the API skip ceiling cut the run short. -/
def search_bbox {α : Type} (st : Settings)
    (oracle : Nat → Except String (List α))
    (toCompany : α → Option Company) (fuel : Nat) : SearchResult :=
  if st.YMAPIKEY = "" then
    { companies := [], metaStoppedBy := none, err := "YMAPIKEY is empty",
      reqs := 0, sleeps := 0 }
  else
    let s := searchLoop st oracle toCompany fuel
      { out := [], seen := [], skip := 0, reqs := 0, sleeps := 0, err := "" }
    let stoppedBy :=
      if s.skip > API_MAX_SKIP ∧ (s.out.length : Int) < maxTotalEff st ∧
          s.err = "" then "api_skip_limit"
      else "normal"
    { companies := s.out, metaStoppedBy := some stoppedBy, err := s.err,
      reqs := s.reqs, sleeps := s.sleeps }

/-- `yandex_api.fetch_by_uri`: raises `RuntimeError("YMAPIKEY is empty")`
before any request when the key is missing; otherwise issues exactly one
(retried) request whose outcome is the oracle's.  The `Nat` component
counts `_get_json_with_retries` invocations. -/
def fetch_by_uri {ρ : Type} (st : Settings)
    (oracle : Unit → Except String ρ) : Except String ρ × Nat :=
  if st.YMAPIKEY = "" then (.error "YMAPIKEY is empty", 0)
  else (oracle (), 1)

/-- C1: with an empty API key, both `search_bbox` and `fetch_by_uri` fail
immediately with the configuration error, issuing zero network requests
(hence no retries) and returning no partial data. -/
theorem c1_empty_api_key {α ρ : Type} (st : Settings)
    (oracle : Nat → Except String (List α))
    (toCompany : α → Option Company) (fuel : Nat)
    (uriOracle : Unit → Except String ρ)
    (hkey : st.YMAPIKEY = "") :
    search_bbox st oracle toCompany fuel =
      { companies := [], metaStoppedBy := none,
        err := "YMAPIKEY is empty", reqs := 0, sleeps := 0 } ∧
    fetch_by_uri st uriOracle = (.error "YMAPIKEY is empty", 0) := by
  constructor
  · unfold search_bbox
    rw [if_pos hkey]
  · unfold fetch_by_uri
    rw [if_pos hkey]

/-- Row collection invariants: the freshly collected rows carry pairwise
distinct identifiers, none of which was already seen, all of which (and
all previously seen ones) are in the updated seen-set. -/
theorem collectRows_spec {α : Type} (toC : α → Option Company) :
    ∀ (features : List α) (seen : List String),
      ((collectRows toC seen features).1.map (fun c => c.ID)).Nodup ∧
      (∀ i ∈ (collectRows toC seen features).1.map (fun c => c.ID),
        i ∉ seen) ∧
      (∀ i ∈ (collectRows toC seen features).1.map (fun c => c.ID),
        i ∈ (collectRows toC seen features).2) ∧
      (∀ i ∈ seen, i ∈ (collectRows toC seen features).2) := by
  intro features
  induction features with
  | nil =>
    intro seen
    simp [collectRows]
  | cons f rest ih =>
    intro seen
    cases hf : toC f with
    | none =>
      simp only [collectRows, hf]
      exact ih seen
    | some c =>
      by_cases h1 : c.ID = ""
      · simp only [collectRows, hf, if_pos h1]
        exact ih seen
      · by_cases h2 : c.ID ∈ seen
        · simp only [collectRows, hf, if_neg h1, if_pos h2]
          exact ih seen
        · simp only [collectRows, hf, if_neg h1, if_neg h2]
          obtain ⟨ha, hb, hcc, hd⟩ := ih (seen ++ [c.ID])
          refine ⟨?_, ?_, ?_, ?_⟩
          · refine List.nodup_cons.mpr ⟨?_, ha⟩
            intro hmem
            exact hb c.ID hmem (by simp)
          · intro i hi
            simp only [List.map_cons, List.mem_cons] at hi
            rcases hi with rfl | hi
            · exact h2
            · intro hs
              exact hb i hi (by simp [hs])
          · intro i hi
            simp only [List.map_cons, List.mem_cons] at hi
            rcases hi with rfl | hi
            · exact hd c.ID (List.mem_append.mpr (Or.inr (by simp)))
            · exact hcc i hi
          · intro i hi
            exact hd i (List.mem_append.mpr (Or.inl hi))

/-- The pagination loop preserves identifier uniqueness: starting from a
state whose collected identifiers are distinct and all recorded in the
seen-set, the final collected identifiers are distinct. -/
theorem searchLoop_nodup {α : Type} (st : Settings)
    (oracle : Nat → Except String (List α))
    (toC : α → Option Company) :
    ∀ (fuel : Nat) (s : SState),
      ((s.out.map (fun c => c.ID)).Nodup) →
      (∀ i ∈ s.out.map (fun c => c.ID), i ∈ s.seen) →
      (((searchLoop st oracle toC fuel s).out.map (fun c => c.ID)).Nodup) := by
  intro fuel
  induction fuel with
  | zero =>
    intro s h1 h2
    exact h1
  | succ fuel ih =>
    intro s h1 h2
    unfold searchLoop
    by_cases hcond : s.skip ≤ API_MAX_SKIP ∧ (s.out.length : Int) < maxTotalEff st
    case neg => rw [if_neg hcond]; exact h1
    case pos =>
      rw [if_pos hcond]
      cases hor : oracle s.reqs with
      | error e => exact h1
      | ok features =>
        dsimp only
        obtain ⟨ha, hb, hcc, hd⟩ := collectRows_spec toC features s.seen
        have hout2 :
            (((s.out ++ (collectRows toC s.seen features).1).map
              (fun c => c.ID)).Nodup) := by
          rw [List.map_append]
          refine List.Nodup.append h1 ha ?_
          intro i hiout hirows
          exact hb i hirows (h2 i hiout)
        have hsub2 :
            ∀ i ∈ (s.out ++ (collectRows toC s.seen features).1).map
              (fun c => c.ID),
              i ∈ (collectRows toC s.seen features).2 := by
          intro i hi
          rw [List.map_append, List.mem_append] at hi
          rcases hi with hi | hi
          · exact hd i (h2 i hi)
          · exact hcc i hi
        by_cases hemp : features.isEmpty = true
        · rw [if_pos hemp]
          exact h1
        · rw [if_neg hemp]
          by_cases hshort :
              (features.length : Int) <
                min (pageSizeEff st) (maxTotalEff st - s.out.length)
          · rw [if_pos hshort]
            exact hout2
          · rw [if_neg hshort]
            exact ih _ hout2 hsub2

/-- C6: for every configuration, network behaviour and feature
conversion, no two records in the list returned by `search_bbox` share an
identifier. -/
theorem c6_search_ids_nodup {α : Type} (st : Settings)
    (oracle : Nat → Except String (List α))
    (toCompany : α → Option Company) (fuel : Nat) :
    ((search_bbox st oracle toCompany fuel).companies.map
      (fun c => c.ID)).Nodup := by
  unfold search_bbox
  by_cases hkey : st.YMAPIKEY = ""
  · rw [if_pos hkey]
    simp
  · rw [if_neg hkey]
    exact searchLoop_nodup st oracle toCompany fuel
      { out := [], seen := [], skip := 0, reqs := 0, sleeps := 0, err := "" }
      (by simp) (by simp)

/-- One step of the pagination loop when the page is strictly shorter
than requested: the rows are folded in and the loop returns without
recursing — no further request, no inter-page sleep. -/
theorem searchLoop_short_page {α : Type} (st : Settings)
    (oracle : Nat → Except String (List α))
    (toCompany : α → Option Company) (fuel : Nat) (s : SState)
    (features : List α)
    (hskip : s.skip ≤ API_MAX_SKIP)
    (hout : (s.out.length : Int) < maxTotalEff st)
    (hor : oracle s.reqs = .ok features) (hne : features ≠ [])
    (hlen : (features.length : Int) <
      min (pageSizeEff st) (maxTotalEff st - s.out.length)) :
    searchLoop st oracle toCompany (fuel + 1) s =
      { s with out := s.out ++ (collectRows toCompany s.seen features).1,
               seen := (collectRows toCompany s.seen features).2,
               reqs := s.reqs + 1 } := by
  have hie : features.isEmpty = false := by
    cases features with
    | nil => exact absurd rfl hne
    | cons a t => rfl
  unfold searchLoop
  rw [if_pos ⟨hskip, hout⟩, hor]
  dsimp only
  rw [hie]
  simp only [Bool.false_eq_true, if_false]
  rw [if_pos hlen]

/-- Scenario A oracle: the first page has 50 features, the second 30,
and any third request would be visible as an error. -/
def scenarioA_pages : Nat → Except String (List String) := fun n =>
  if n = 0 then .ok ((List.range 50).map (fun k => toString k))
  else if n = 1 then .ok ((List.range' 50 30).map (fun k => toString k))
  else .error "no_third_request"

/-- Scenario A run: default settings (page size 50, `MAX_SKIP` 1000) with
a key, every feature converting to a record whose identifier is the
feature string (all distinct, non-empty). -/
def scenarioA : SearchResult :=
  search_bbox { YMAPIKEY := "k" } scenarioA_pages
    (fun s => some { ID := s }) 1000

/-- C2: a page strictly shorter than requested is the final page — the
loop returns after folding it in, with no further request and no further
sleep (general clause); and in scenario A (pages of 50 and 30 features,
distinct non-empty identifiers) the search returns exactly the 80 unique
organizations with exactly 2 requests and 1 inter-page sleep. -/
theorem c2_short_page_ends_search :
    (∀ {α : Type} (st : Settings) (oracle : Nat → Except String (List α))
        (toCompany : α → Option Company) (fuel : Nat) (s : SState)
        (features : List α),
      s.skip ≤ API_MAX_SKIP → (s.out.length : Int) < maxTotalEff st →
      oracle s.reqs = .ok features → features ≠ [] →
      (features.length : Int) <
        min (pageSizeEff st) (maxTotalEff st - s.out.length) →
      searchLoop st oracle toCompany (fuel + 1) s =
        { s with out := s.out ++ (collectRows toCompany s.seen features).1,
                 seen := (collectRows toCompany s.seen features).2,
                 reqs := s.reqs + 1 }) ∧
    scenarioA.companies.map (fun c => c.ID) =
      (List.range 80).map (fun k => toString k) ∧
    scenarioA.companies.length = 80 ∧
    scenarioA.reqs = 2 ∧ scenarioA.sleeps = 1 ∧ scenarioA.err = "" := by
  refine ⟨?_, ?_, ?_, ?_, ?_, ?_⟩
  · exact fun st oracle toCompany fuel s features h1 h2 h3 h4 h5 =>
      searchLoop_short_page st oracle toCompany fuel s features h1 h2 h3 h4 h5
  all_goals decide

/-- Witness for C2's general clause: a single one-feature page against a
page size of 50 ends the search at one request. -/
theorem c2_short_page_ends_search_witness :
    searchLoop ({ YMAPIKEY := "k" } : Settings)
        (fun _ => .ok ["a"]) (fun s => some { ID := s }) 1
        { out := [], seen := [], skip := 0, reqs := 0, sleeps := 0,
          err := "" } =
      { out := [{ ID := "a" }], seen := ["a"], skip := 0, reqs := 1,
        sleeps := 0, err := "" } := by
  have h := c2_short_page_ends_search.1 ({ YMAPIKEY := "k" } : Settings)
    (fun _ => .ok ["a"]) (fun s => some { ID := s }) 0
    { out := [], seen := [], skip := 0, reqs := 0, sleeps := 0, err := "" }
    ["a"] (by decide) (by decide) rfl (by decide) (by decide)
  exact h

/-- Witness for C1 at the default configuration (whose key is empty). -/
theorem c1_empty_api_key_witness :
    search_bbox ({} : Settings) (fun _ => .ok ([] : List Unit))
        (fun _ => none) 5 =
      { companies := [], metaStoppedBy := none,
        err := "YMAPIKEY is empty", reqs := 0, sleeps := 0 } ∧
    fetch_by_uri ({} : Settings) (fun _ => .ok ()) =
      (.error "YMAPIKEY is empty", 0) :=
  c1_empty_api_key {} (fun _ => .ok []) (fun _ => none) 5
    (fun _ => .ok ()) rfl

/-! ## The enrichment batch loop (`web_enrich.enrich_companies_web`)

The per-item work (`enrich_company_from_web`, network and browser
included) is an oracle `Company → Except String Company`; the loop's own
control flow — the `WEB_MAX_ITEMS` cap on the `done` counter, the
empty-identifier skip, `try/except` around the item, the stats dict, and
the in-place update of `companies[i-1]` — is transcribed below.  The
optional inter-item `time.sleep` has no bearing on the claims and is not
recorded. -/

/-- How the loop classified one list entry. -/
inductive ItemOutcome
  | skippedCap
  | skippedNoId
  | succeeded
  | failed (msg : String)
  deriving Repr, DecidableEq

/-- The `stats` dict of `enrich_companies_web`. -/
structure EnrichStats where
  attempted : Nat := 0
  success : Nat := 0
  failed : Nat := 0
  skipped : Nat := 0
  errors : List String := []
  deriving Repr, DecidableEq

/-- Result of the batch loop: statistics, the (mutated) company list, and
the per-item outcome trace. -/
structure EnrichRun where
  stats : EnrichStats
  companies : List Company
  trace : List ItemOutcome
  deriving Repr, DecidableEq

/-- `web_enrich.enrich_companies_web`, with `done` the count of items
attempted so far: cap reached → skipped; empty id → skipped; otherwise
attempt, recording success (and the new record) or the per-item failure
string `"oid: e"`, and continue with the rest of the list either way. -/
def enrich_companies_web (st : Settings)
    (oracle : Company → Except String Company) :
    List Company → Nat → EnrichRun
  | [], _ => { stats := {}, companies := [], trace := [] }
  | c :: rest, done =>
    if st.WEB_MAX_ITEMS > 0 ∧ (done : Int) ≥ st.WEB_MAX_ITEMS then
      let r := enrich_companies_web st oracle rest done
      { stats := { r.stats with skipped := r.stats.skipped + 1 },
        companies := c :: r.companies,
        trace := .skippedCap :: r.trace }
    else if safe_str c.ID = "" then
      let r := enrich_companies_web st oracle rest done
      { stats := { r.stats with skipped := r.stats.skipped + 1 },
        companies := c :: r.companies,
        trace := .skippedNoId :: r.trace }
    else
      match oracle c with
      | .ok newc =>
        let r := enrich_companies_web st oracle rest (done + 1)
        { stats :=
            { r.stats with
              attempted := r.stats.attempted + 1,
              success := r.stats.success + 1 },
          companies := newc :: r.companies,
          trace := .succeeded :: r.trace }
      | .error e =>
        let r := enrich_companies_web st oracle rest (done + 1)
        { stats :=
            { r.stats with
              attempted := r.stats.attempted + 1,
              failed := r.stats.failed + 1,
              errors := (safe_str c.ID ++ ": " ++ e) :: r.stats.errors },
          companies := c :: r.companies,
          trace := .failed (safe_str c.ID ++ ": " ++ e) :: r.trace }

/-- The failure message carried by a `failed` outcome. -/
def failureMsg : ItemOutcome → Option String
  | .failed m => some m
  | _ => none

/-- Whether an outcome corresponds to an attempted item. -/
def isAttempted : ItemOutcome → Bool
  | .succeeded => true
  | .failed _ => true
  | _ => false

theorem enrich_trace_length (st : Settings)
    (oracle : Company → Except String Company) :
    ∀ (cs : List Company) (done : Nat),
      (enrich_companies_web st oracle cs done).trace.length = cs.length := by
  intro cs
  induction cs with
  | nil => intro done; rfl
  | cons c rest ih =>
    intro done
    unfold enrich_companies_web
    by_cases hcap : st.WEB_MAX_ITEMS > 0 ∧ (done : Int) ≥ st.WEB_MAX_ITEMS
    · rw [if_pos hcap]
      simp [ih done]
    · rw [if_neg hcap]
      by_cases hid : safe_str c.ID = ""
      · rw [if_pos hid]
        simp [ih done]
      · rw [if_neg hid]
        cases horacle : oracle c with
        | ok newc => simp [ih (done + 1)]
        | error e => simp [ih (done + 1)]

theorem enrich_errors_are_failures (st : Settings)
    (oracle : Company → Except String Company) :
    ∀ (cs : List Company) (done : Nat),
      (enrich_companies_web st oracle cs done).stats.errors =
        (enrich_companies_web st oracle cs done).trace.filterMap failureMsg := by
  intro cs
  induction cs with
  | nil => intro done; rfl
  | cons c rest ih =>
    intro done
    unfold enrich_companies_web
    by_cases hcap : st.WEB_MAX_ITEMS > 0 ∧ (done : Int) ≥ st.WEB_MAX_ITEMS
    · rw [if_pos hcap]
      simp [ih done, failureMsg]
    · rw [if_neg hcap]
      by_cases hid : safe_str c.ID = ""
      · rw [if_pos hid]
        simp [ih done, failureMsg]
      · rw [if_neg hid]
        cases horacle : oracle c with
        | ok newc => simp [ih (done + 1), failureMsg]
        | error e => simp [ih (done + 1), failureMsg]

theorem enrich_attempt_pattern_oracle_independent (st : Settings) :
    ∀ (cs : List Company) (done : Nat)
      (o1 o2 : Company → Except String Company),
      (enrich_companies_web st o1 cs done).trace.map isAttempted =
        (enrich_companies_web st o2 cs done).trace.map isAttempted := by
  intro cs
  induction cs with
  | nil => intro done o1 o2; rfl
  | cons c rest ih =>
    intro done o1 o2
    unfold enrich_companies_web
    by_cases hcap : st.WEB_MAX_ITEMS > 0 ∧ (done : Int) ≥ st.WEB_MAX_ITEMS
    · rw [if_pos hcap, if_pos hcap]
      simp [ih done o1 o2]
    · rw [if_neg hcap, if_neg hcap]
      by_cases hid : safe_str c.ID = ""
      · rw [if_pos hid, if_pos hid]
        simp [ih done o1 o2]
      · rw [if_neg hid, if_neg hid]
        cases h1 : o1 c <;> cases h2 : o2 c <;>
          simp [isAttempted, ih (done + 1) o1 o2]

/-- C7: one item's failure is recorded as a per-item error string and
does not stop the batch.  Clause 1: when an eligible item's enrichment
raises `e`, the loop records `"oid: e"` and continues over the remaining
list exactly as it would have (same per-item processing, same relative
stats).  Clause 2: every list entry receives exactly one outcome.
Clause 3: the error list is precisely the per-item failure messages, in
order.  Clause 4: which items are attempted is independent of the
successes or failures of the others. -/
theorem c7_batch_failure_isolation :
    (∀ (st : Settings) (oracle : Company → Except String Company)
        (c : Company) (rest : List Company) (done : Nat) (e : String),
      ¬(st.WEB_MAX_ITEMS > 0 ∧ (done : Int) ≥ st.WEB_MAX_ITEMS) →
      safe_str c.ID ≠ "" → oracle c = .error e →
      enrich_companies_web st oracle (c :: rest) done =
        { stats :=
            { (enrich_companies_web st oracle rest (done + 1)).stats with
              attempted := (enrich_companies_web st oracle rest
                (done + 1)).stats.attempted + 1,
              failed := (enrich_companies_web st oracle rest
                (done + 1)).stats.failed + 1,
              errors := (safe_str c.ID ++ ": " ++ e) ::
                (enrich_companies_web st oracle rest (done + 1)).stats.errors },
          companies := c ::
            (enrich_companies_web st oracle rest (done + 1)).companies,
          trace := .failed (safe_str c.ID ++ ": " ++ e) ::
            (enrich_companies_web st oracle rest (done + 1)).trace }) ∧
    (∀ (st : Settings) (oracle : Company → Except String Company)
        (cs : List Company),
      (enrich_companies_web st oracle cs 0).trace.length = cs.length) ∧
    (∀ (st : Settings) (oracle : Company → Except String Company)
        (cs : List Company),
      (enrich_companies_web st oracle cs 0).stats.errors =
        (enrich_companies_web st oracle cs 0).trace.filterMap failureMsg) ∧
    (∀ (st : Settings) (cs : List Company)
        (o1 o2 : Company → Except String Company),
      (enrich_companies_web st o1 cs 0).trace.map isAttempted =
        (enrich_companies_web st o2 cs 0).trace.map isAttempted) := by
  refine ⟨?_, ?_, ?_, ?_⟩
  · intro st oracle c rest done e hcap hid horacle
    simp only [enrich_companies_web]
    rw [if_neg hcap, if_neg hid, horacle]
  · intro st oracle cs
    exact enrich_trace_length st oracle cs 0
  · intro st oracle cs
    exact enrich_errors_are_failures st oracle cs 0
  · intro st cs o1 o2
    exact enrich_attempt_pattern_oracle_independent st cs 0 o1 o2

/-- Witness for C7: a two-item batch whose first item fails still
processes the second (which succeeds), with the failure recorded. -/
theorem c7_batch_failure_isolation_witness :
    enrich_companies_web {}
        (fun c => if c.ID = "1" then .error "boom" else .ok c)
        [{ ID := "1" }, { ID := "2" }] 0 =
      { stats := { attempted := 2, success := 1, failed := 1, skipped := 0,
                   errors := ["1: boom"] },
        companies := [{ ID := "1" }, { ID := "2" }],
        trace := [.failed "1: boom", .succeeded] } := by
  have h := c7_batch_failure_isolation.1 {}
    (fun c => if c.ID = "1" then .error "boom" else .ok c)
    { ID := "1" } [{ ID := "2" }] 0 "boom" (by decide) (by decide) (by rfl)
  rw [h]
  rfl

/-! ## The browser session manager's `close` (`selenium_pool.SeleniumPool.close`)

The pool state is the manager's own fields (`keep_chrome_open`,
`driver`/`proc` handle presence, `started_by_us`); process and webdriver
effects are recorded as an action list, with the success of the graceful
`proc.wait(timeout=5)` an oracle bit.  `driver.quit()` is a webdriver
call on the automation connection, distinct from terminating the browser
process. -/

inductive PoolAction
  | quitDriver
  | terminateProc
  | waitProc
  | killProc
  | warnCloseExternal
  deriving Repr, DecidableEq

/-- The `SeleniumPool` fields touched by `close`. -/
structure PoolState where
  keep_chrome_open : Bool
  driver : Bool
  started_by_us : Bool
  proc : Bool
  deriving Repr, DecidableEq

/-- `selenium_pool.SeleniumPool.close`: keep-open mode only drops the
handles; otherwise quit the driver if present; terminate (then, if the
graceful wait fails, kill) the process only when the pool both launched
it and still holds it; a merely-attached process with the
"close externally owned" flag set yields only a logged warning. -/
def SeleniumPool_close (st : Settings) (ps : PoolState)
    (gracefulOk : Bool) : List PoolAction × PoolState :=
  if ps.keep_chrome_open then
    ([], { ps with driver := false, proc := false })
  else
    let acts1 := if ps.driver then [PoolAction.quitDriver] else []
    if ps.started_by_us && ps.proc then
      (acts1 ++ [.terminateProc, .waitProc] ++
        (if gracefulOk then [] else [.killProc]),
       { ps with driver := false, proc := false })
    else if !ps.started_by_us && st.CLOSE_EXISTING_DEBUG_CHROME then
      (acts1 ++ [.warnCloseExternal], { ps with driver := false })
    else
      (acts1, { ps with driver := false })

/-- C8: `close` never terminates (or kills) a browser process the pool
merely attached to, in any state and regardless of the
`CLOSE_EXISTING_DEBUG_CHROME` flag — that flag produces only the logged
warning; a process the pool itself launched is terminated, with the
forceful kill exactly when the graceful wait fails. -/
theorem c8_close_never_kills_attached :
    (∀ (st : Settings) (ps : PoolState) (ok : Bool),
      ps.started_by_us = false →
      PoolAction.terminateProc ∉ (SeleniumPool_close st ps ok).1 ∧
      PoolAction.killProc ∉ (SeleniumPool_close st ps ok).1 ∧
      (PoolAction.warnCloseExternal ∈ (SeleniumPool_close st ps ok).1 ↔
        (st.CLOSE_EXISTING_DEBUG_CHROME = true ∧
          ps.keep_chrome_open = false))) ∧
    (∀ (st : Settings) (ps : PoolState) (ok : Bool),
      ps.started_by_us = true → ps.proc = true →
      ps.keep_chrome_open = false →
      PoolAction.terminateProc ∈ (SeleniumPool_close st ps ok).1 ∧
      (PoolAction.killProc ∈ (SeleniumPool_close st ps ok).1 ↔ ok = false)) := by
  constructor
  · intro st ps ok hatt
    obtain ⟨k, d, s, p⟩ := ps
    cases hatt
    cases k <;> cases d <;> cases p <;>
      cases hflag : st.CLOSE_EXISTING_DEBUG_CHROME <;>
      cases ok <;>
      simp [SeleniumPool_close, hflag]
  · intro st ps ok hown hproc hkeep
    obtain ⟨k, d, s, p⟩ := ps
    cases hown
    cases hproc
    cases hkeep
    cases d <;> cases ok <;>
      simp [SeleniumPool_close]

/-- Witness for C8: attached state with the close-externally flag set
yields only the warning (plus the driver quit); an owned process whose
graceful wait fails is terminated and then killed. -/
theorem c8_close_never_kills_attached_witness :
    (PoolAction.terminateProc ∉
      (SeleniumPool_close { CLOSE_EXISTING_DEBUG_CHROME := true }
        { keep_chrome_open := false, driver := true,
          started_by_us := false, proc := true } true).1 ∧
     PoolAction.killProc ∉
      (SeleniumPool_close { CLOSE_EXISTING_DEBUG_CHROME := true }
        { keep_chrome_open := false, driver := true,
          started_by_us := false, proc := true } true).1 ∧
     (PoolAction.warnCloseExternal ∈
        (SeleniumPool_close { CLOSE_EXISTING_DEBUG_CHROME := true }
          { keep_chrome_open := false, driver := true,
            started_by_us := false, proc := true } true).1 ↔
       (true = true ∧ false = false))) ∧
    (PoolAction.terminateProc ∈
      (SeleniumPool_close {}
        { keep_chrome_open := false, driver := true,
          started_by_us := true, proc := true } false).1 ∧
     (PoolAction.killProc ∈
        (SeleniumPool_close {}
          { keep_chrome_open := false, driver := true,
            started_by_us := true, proc := true } false).1 ↔
       false = false)) := by
  constructor
  · have h := c8_close_never_kills_attached.1
      ({ CLOSE_EXISTING_DEBUG_CHROME := true } : Settings)
      { keep_chrome_open := false, driver := true,
        started_by_us := false, proc := true } true rfl
    exact ⟨h.1, h.2.1, by rw [h.2.2]⟩
  · exact c8_close_never_kills_attached.2 {}
      { keep_chrome_open := false, driver := true,
        started_by_us := true, proc := true } false rfl rfl rfl

/-! ## Rating normalization (`_format_rating_1` of `yandex_api.py` and
`web_enrich.py`, two identical copies)

`PyFloat` models a CPython float: exact rationals for finite values plus
the three non-finite values, with `float(str)` parsing (sign, `inf`,
`infinity`, `nan` case-insensitively, decimal mantissa, optional
exponent; digit-group underscores are not modelled) and `"%.1f"`
formatting by round-half-even.  Every concrete input appearing in a
theorem parses to a value on which the binary64 reading rounds to the
same one-decimal string. -/

/-- A finite value is held exactly as `mant · 10 ^ exp10` (the exact
value of the decimal literal; digit strings are decimal, so this is
lossless). -/
inductive PyFloat
  | finite (mant : ℤ) (exp10 : ℤ)
  | inf
  | ninf
  | nan
  deriving Repr, DecidableEq

/-- Greedy decimal-digit scan accumulating value and digit count. -/
def parseDigitsAux (acc cnt : Nat) : List Char → Nat × Nat × List Char
  | [] => (acc, cnt, [])
  | c :: rest =>
    if c.isDigit then parseDigitsAux (acc * 10 + (c.toNat - 48)) (cnt + 1) rest
    else (acc, cnt, c :: rest)

/-- The mantissa of a Python float literal: `digits [. digits]` or
`. digits`, at least one digit in total.  Returns the digits read as one
integer together with the count of fractional digits. -/
def parseMantissa (l : List Char) : Option (Nat × Nat × List Char) :=
  let t := parseDigitsAux 0 0 l
  match t.2.2 with
  | c :: r2 =>
    if c = '.' then
      let u := parseDigitsAux 0 0 r2
      if t.2.1 + u.2.1 = 0 then none
      else some (t.1 * 10 ^ u.2.1 + u.1, u.2.1, u.2.2)
    else if t.2.1 = 0 then none
    else some (t.1, 0, c :: r2)
  | [] => if t.2.1 = 0 then none else some (t.1, 0, [])

/-- Exponent value after an `e`/`E` marker. -/
def parseExpDigits (sgnE : Int) (r : List Char) : Option (Int × List Char) :=
  let t := parseDigitsAux 0 0 r
  if t.2.1 = 0 then none else some (sgnE * (t.1 : Int), t.2.2)

/-- Optional exponent part of a Python float literal. -/
def parseExp : List Char → Option (Int × List Char)
  | [] => some (0, [])
  | c :: rest =>
    if c = 'e' ∨ c = 'E' then
      match rest with
      | [] => parseExpDigits 1 []
      | c2 :: r2 =>
        if c2 = '+' then parseExpDigits 1 r2
        else if c2 = '-' then parseExpDigits (-1) r2
        else parseExpDigits 1 (c2 :: r2)
    else some (0, c :: rest)

/-- Leading sign of a float literal. -/
def parseSign : List Char → Int × List Char
  | [] => (1, [])
  | c :: rest =>
    if c = '+' then (1, rest)
    else if c = '-' then (-1, rest)
    else (1, c :: rest)

/-- The body of `float(s)` after the sign has been taken off. -/
def pyFloatAfterSign (sgn : Int) (l1 : List Char) : Option PyFloat :=
  if l1.map Char.toLower = "inf".data ∨ l1.map Char.toLower = "infinity".data then
    some (if sgn = 1 then PyFloat.inf else PyFloat.ninf)
  else if l1.map Char.toLower = "nan".data then some PyFloat.nan
  else
    match parseMantissa l1 with
    | none => none
    | some (m0, fc, r1) =>
      match parseExp r1 with
      | none => none
      | some (ex, r2) =>
        if r2 = [] then
          some (PyFloat.finite (sgn * (m0 : ℤ)) (ex - (fc : ℤ)))
        else none

/-- Python `float(s)` on a stripped character list. -/
def parsePyFloatCore (l : List Char) : Option PyFloat :=
  pyFloatAfterSign (parseSign l).1 (parseSign l).2

/-- Python `float(s)`: strips surrounding whitespace, then parses. -/
def pyFloatOfString (s : String) : Option PyFloat :=
  parsePyFloatCore (stripChars s.data)

/-- `m · 10 ^ k` rounded to the nearest integer, ties to even (the
rounding of CPython float formatting), in exact integer arithmetic. -/
def rheScaled (m k : ℤ) : ℤ :=
  if 0 ≤ k then m * 10 ^ k.toNat
  else
    let d : ℤ := 10 ^ (-k).toNat
    let q := m.fdiv d
    let r := m.fmod d
    if 2 * r < d then q
    else if d < 2 * r then q + 1
    else if q % 2 = 0 then q else q + 1

/-- Decimal digits, fuel-indexed so that reduction is structural. -/
def natToDigitsAux : Nat → Nat → List Char
  | 0, _ => []
  | fuel + 1, n =>
    if n < 10 then [Char.ofNat (48 + n)]
    else natToDigitsAux fuel (n / 10) ++ [Char.ofNat (48 + n % 10)]

/-- Decimal digits of a natural number, most significant first. -/
def natToDigits (n : Nat) : List Char := natToDigitsAux (n + 1) n

theorem natToDigitsAux_fuel :
    ∀ (f1 : Nat) (f2 n : Nat), n < f1 → n < f2 →
      natToDigitsAux f1 n = natToDigitsAux f2 n := by
  intro f1
  induction f1 with
  | zero => intro f2 n h1 _; omega
  | succ f ih =>
    intro f2 n h1 h2
    cases f2 with
    | zero => omega
    | succ g =>
      unfold natToDigitsAux
      by_cases h10 : n < 10
      · rw [if_pos h10, if_pos h10]
      · rw [if_neg h10, if_neg h10]
        have hd : n / 10 < n := Nat.div_lt_self (by omega) (by omega)
        rw [ih g (n / 10) (by omega) (by omega)]

/-- The recursive unfolding of `natToDigits`. -/
theorem natToDigits_eq (n : Nat) :
    natToDigits n =
      if n < 10 then [Char.ofNat (48 + n)]
      else natToDigits (n / 10) ++ [Char.ofNat (48 + n % 10)] := by
  unfold natToDigits
  by_cases h10 : n < 10
  · unfold natToDigitsAux
    rw [if_pos h10, if_pos h10]
  · conv_lhs => unfold natToDigitsAux
    rw [if_neg h10, if_neg h10]
    have hd : n / 10 < n := Nat.div_lt_self (by omega) (by omega)
    rw [natToDigitsAux_fuel n (n / 10 + 1) (n / 10) (by omega) (by omega)]

/-- The canonical one-decimal comma-separated rendering of `n` tenths:
the (comma-translated) output shape of `f"{v:.1f}"`. -/
def oneDecimalComma (n : ℤ) : String :=
  String.mk ((if n < 0 then ['-'] else []) ++ natToDigits (n.natAbs / 10) ++
    [','] ++ [Char.ofNat (48 + n.natAbs % 10)])

/-- `f"{v:.1f}"` with the final `.replace(".", ",")` applied (source line
`return f"{v:.1f}".replace(".", ",")`); non-finite floats print their
names.  Scaling by ten and rounding half-even renders the value to one
decimal digit. -/
def format_1f : PyFloat → String
  | .nan => "nan"
  | .inf => "inf"
  | .ninf => "-inf"
  | .finite m e => oneDecimalComma (rheScaled m (e + 1))

/-- The character translation of `.replace(",", ".")`. -/
def commaToDot (c : Char) : Char := if c = ',' then '.' else c

/-- `_format_rating_1` (identical in `yandex_api.py` and
`web_enrich.py`): `safe_str`, commas to dots, empty → empty, `float`
failure → empty, else one-decimal formatting with a comma separator. -/
def format_rating_1 (x : String) : String :=
  if String.mk ((safe_str x).data.map commaToDot) = "" then ""
  else
    match pyFloatOfString (String.mk ((safe_str x).data.map commaToDot)) with
    | none => ""
    | some f => format_1f f

/-- At least one digit, then a comma, then exactly one digit. -/
def isOneDecimalDigits (l : List Char) : Bool :=
  (decide (l.takeWhile Char.isDigit ≠ [])) &&
    (match l.dropWhile Char.isDigit with
     | [',', d] => d.isDigit
     | _ => false)

/-- "Valid one-decimal numeric string in the canonical comma form",
written from the spec's words: an optional minus sign, at least one
digit, a comma, and exactly one digit. -/
def isOneDecimalComma (s : String) : Bool :=
  isOneDecimalDigits (if s.data.head? = some '-' then s.data.tail else s.data)

/-! ### Lemmas about digits, parsing and the one-decimal form (C9) -/

theorem ofNat_digit_isDigit : ∀ d : Nat, d < 10 →
    (Char.ofNat (48 + d)).isDigit = true := by
  intro d hd
  interval_cases d <;> decide

theorem ofNat_digit_toNat : ∀ d : Nat, d < 10 →
    (Char.ofNat (48 + d)).toNat - 48 = d := by
  intro d hd
  interval_cases d <;> decide

theorem digit_ne_of_not_digit {c x : Char} (h : c.isDigit = true)
    (hx : x.isDigit = false) : c ≠ x := by
  intro he
  rw [he, hx] at h
  exact Bool.noConfusion h

theorem natToDigits_all_digits : ∀ n : Nat, ∀ c ∈ natToDigits n,
    c.isDigit = true := by
  intro n
  induction n using Nat.strong_induction_on with
  | _ n ih =>
    rw [natToDigits_eq n]
    by_cases h10 : n < 10
    · rw [if_pos h10]
      intro c hc
      simp only [List.mem_singleton] at hc
      subst hc
      exact ofNat_digit_isDigit n h10
    · rw [if_neg h10]
      intro c hc
      rcases List.mem_append.mp hc with hc | hc
      · exact ih (n / 10) (Nat.div_lt_self (by omega) (by omega)) c hc
      · simp only [List.mem_singleton] at hc
        subst hc
        exact ofNat_digit_isDigit (n % 10) (Nat.mod_lt n (by omega))

theorem natToDigits_ne_nil (n : Nat) : natToDigits n ≠ [] := by
  rw [natToDigits_eq n]
  by_cases h10 : n < 10
  · rw [if_pos h10]
    exact List.cons_ne_nil _ _
  · rw [if_neg h10]
    simp

theorem parseDigitsAux_nondigit (acc cnt : Nat) {c : Char}
    (h : c.isDigit = false) (rest : List Char) :
    parseDigitsAux acc cnt (c :: rest) = (acc, cnt, c :: rest) := by
  unfold parseDigitsAux
  rw [h]
  simp

theorem parseDigitsAux_digit (acc cnt : Nat) {c : Char}
    (h : c.isDigit = true) (rest : List Char) :
    parseDigitsAux acc cnt (c :: rest) =
      parseDigitsAux (acc * 10 + (c.toNat - 48)) (cnt + 1) rest := by
  conv_lhs => unfold parseDigitsAux
  rw [h]
  simp

theorem parseDigitsAux_digits_append : ∀ (n acc cnt : Nat) (rest : List Char),
    parseDigitsAux acc cnt (natToDigits n ++ rest) =
      parseDigitsAux (acc * 10 ^ (natToDigits n).length + n)
        (cnt + (natToDigits n).length) rest := by
  intro n
  induction n using Nat.strong_induction_on with
  | _ n ih =>
    intro acc cnt rest
    rw [natToDigits_eq n]
    by_cases h10 : n < 10
    · rw [if_pos h10]
      rw [List.singleton_append,
        parseDigitsAux_digit acc cnt (ofNat_digit_isDigit n h10) rest,
        ofNat_digit_toNat n h10]
      simp [pow_one]
    · rw [if_neg h10]
      have hdiv : n / 10 < n := Nat.div_lt_self (by omega) (by omega)
      rw [List.append_assoc, List.singleton_append, ih (n / 10) hdiv acc cnt _,
        parseDigitsAux_digit _ _ (ofNat_digit_isDigit (n % 10) (Nat.mod_lt n (by omega))) rest,
        ofNat_digit_toNat (n % 10) (Nat.mod_lt n (by omega))]
      have harith :
          (acc * 10 ^ (natToDigits (n / 10)).length + n / 10) * 10 + n % 10 =
            acc * 10 ^ (natToDigits (n / 10) ++
              [Char.ofNat (48 + n % 10)]).length + n := by
        rw [List.length_append, List.length_singleton, pow_succ,
          ← mul_assoc]
        have hdm : 10 * (n / 10) + n % 10 = n := Nat.div_add_mod n 10
        generalize acc * 10 ^ (natToDigits (n / 10)).length = m
        omega
      rw [harith]
      have hlen : (cnt + (natToDigits (n / 10)).length) + 1 =
          cnt + (natToDigits (n / 10) ++ [Char.ofNat (48 + n % 10)]).length := by
        rw [List.length_append, List.length_singleton]
        omega
      rw [hlen]

/-- The digit run of `natToDigits m` followed by a non-digit parses back
to `m`. -/
theorem parseDigitsAux_roundtrip (m : Nat) (rest : List Char)
    (hstop : ∀ c, rest.head? = some c → c.isDigit = false) :
    parseDigitsAux 0 0 (natToDigits m ++ rest) =
      (m, (natToDigits m).length, rest) := by
  rw [parseDigitsAux_digits_append m 0 0 rest]
  simp only [Nat.zero_mul, Nat.zero_add]
  cases rest with
  | nil => rfl
  | cons c r2 => exact parseDigitsAux_nondigit _ _ (hstop c rfl) r2

theorem map_id_of_mem {f : Char → Char} {l : List Char}
    (h : ∀ c ∈ l, f c = c) : l.map f = l := by
  induction l with
  | nil => rfl
  | cons a t ih =>
    simp only [List.map_cons, h a (by simp)]
    rw [ih (fun c hc => h c (by simp [hc]))]

theorem parseSign_digit_head {c : Char} (h : c.isDigit = true)
    (rest : List Char) : parseSign (c :: rest) = (1, c :: rest) := by
  simp only [parseSign]
  rw [if_neg (digit_ne_of_not_digit h (by decide)),
    if_neg (digit_ne_of_not_digit h (by decide))]

theorem parseSign_minus (rest : List Char) :
    parseSign ('-' :: rest) = (-1, rest) := by
  simp [parseSign]

theorem not_inf_of_dot {l : List Char} (hdot : ('.' : Char) ∈ l) :
    ¬(l.map Char.toLower = "inf".data ∨
      l.map Char.toLower = "infinity".data) := by
  have hm : ('.' : Char) ∈ l.map Char.toLower :=
    List.mem_map.mpr ⟨'.', hdot, by decide⟩
  rintro (h | h) <;> (rw [h] at hm; revert hm; decide)

theorem not_nan_of_dot {l : List Char} (hdot : ('.' : Char) ∈ l) :
    ¬(l.map Char.toLower = "nan".data) := by
  have hm : ('.' : Char) ∈ l.map Char.toLower :=
    List.mem_map.mpr ⟨'.', hdot, by decide⟩
  intro h
  rw [h] at hm
  revert hm
  decide

theorem parseMantissa_canonical (m d : Nat) (hd : d < 10) :
    parseMantissa (natToDigits m ++ '.' :: [Char.ofNat (48 + d)]) =
      some (m * 10 + d, 1, []) := by
  unfold parseMantissa
  rw [parseDigitsAux_roundtrip m ('.' :: [Char.ofNat (48 + d)])
    (by intro c hc; injection hc with hc; rw [← hc]; decide)]
  dsimp only
  rw [if_pos rfl, parseDigitsAux_digit 0 0 (ofNat_digit_isDigit d hd) [],
    ofNat_digit_toNat d hd]
  dsimp only [parseDigitsAux]
  rw [if_neg (by omega : ¬((natToDigits m).length + 1 = 0))]
  simp [pow_one]

theorem parsePyFloatCore_canonical_pos (m d : Nat) (hd : d < 10) :
    parsePyFloatCore (natToDigits m ++ '.' :: [Char.ofNat (48 + d)]) =
      some (PyFloat.finite ((m * 10 + d : Nat) : ℤ) (-1)) := by
  cases heq : natToDigits m with
  | nil => exact absurd heq (natToDigits_ne_nil m)
  | cons c0 D =>
    have hdig0 : c0.isDigit = true :=
      natToDigits_all_digits m c0 (by rw [heq]; simp)
    have hdot : ('.' : Char) ∈ c0 :: (D ++ '.' :: [Char.ofNat (48 + d)]) := by
      simp
    unfold parsePyFloatCore
    rw [List.cons_append, parseSign_digit_head hdig0]
    dsimp only
    unfold pyFloatAfterSign
    rw [if_neg (not_inf_of_dot hdot), if_neg (not_nan_of_dot hdot),
      ← List.cons_append, ← heq, parseMantissa_canonical m d hd]
    dsimp only
    rw [show parseExp ([] : List Char) = some (0, []) from rfl]
    dsimp only
    rw [if_pos rfl]
    norm_num

theorem parsePyFloatCore_canonical_neg (m d : Nat) (hd : d < 10) :
    parsePyFloatCore ('-' :: (natToDigits m ++ '.' :: [Char.ofNat (48 + d)])) =
      some (PyFloat.finite (-((m * 10 + d : Nat) : ℤ)) (-1)) := by
  have hdot : ('.' : Char) ∈ natToDigits m ++ '.' :: [Char.ofNat (48 + d)] := by
    simp
  unfold parsePyFloatCore
  rw [parseSign_minus]
  dsimp only
  unfold pyFloatAfterSign
  rw [if_neg (not_inf_of_dot hdot), if_neg (not_nan_of_dot hdot),
    parseMantissa_canonical m d hd]
  dsimp only
  rw [show parseExp ([] : List Char) = some (0, []) from rfl]
  dsimp only
  rw [if_pos rfl]
  norm_num

theorem rheScaled_exp_zero (m : ℤ) : rheScaled m 0 = m := by
  unfold rheScaled
  rw [if_pos (by omega : (0 : ℤ) ≤ 0)]
  simp

theorem commaToDot_digit {c : Char} (h : c.isDigit = true) :
    commaToDot c = c := by
  unfold commaToDot
  rw [if_neg (digit_ne_of_not_digit h (by decide))]

theorem stringMk_ne_empty {l : List Char} (h : l ≠ []) :
    String.mk l ≠ "" := by
  intro hc
  apply h
  have h2 := congrArg String.data hc
  simpa using h2

/-- The mantissa chars of the canonical form, after comma translation. -/
theorem map_commaToDot_canonical (a : Nat) (hd : a % 10 < 10) :
    (natToDigits (a / 10) ++ [','] ++ [Char.ofNat (48 + a % 10)]).map
        commaToDot =
      natToDigits (a / 10) ++ '.' :: [Char.ofNat (48 + a % 10)] := by
  simp only [List.map_append, List.map_cons, List.map_nil]
  rw [map_id_of_mem
      (fun c hc => commaToDot_digit (natToDigits_all_digits (a / 10) c hc)),
    commaToDot_digit (ofNat_digit_isDigit (a % 10) hd),
    show commaToDot ',' = '.' from rfl]
  simp [List.append_assoc]

/-- No whitespace occurs in the canonical mantissa chars (dot form). -/
theorem nospace_canonical_dot (a : Nat) (hd : a % 10 < 10) :
    ∀ c ∈ natToDigits (a / 10) ++ '.' :: [Char.ofNat (48 + a % 10)],
      isPySpace c = false := by
  intro c hc
  rcases List.mem_append.mp hc with hc | hc
  · exact isPySpace_eq_false_of_isDigit (natToDigits_all_digits (a / 10) c hc)
  · simp only [List.mem_cons, List.not_mem_nil, or_false] at hc
    rcases hc with rfl | rfl
    · decide
    · exact isPySpace_eq_false_of_isDigit (ofNat_digit_isDigit (a % 10) hd)

/-- No whitespace occurs in the canonical comma-form chars. -/
theorem nospace_canonical_comma (a : Nat) (hd : a % 10 < 10) :
    ∀ c ∈ natToDigits (a / 10) ++ [','] ++ [Char.ofNat (48 + a % 10)],
      isPySpace c = false := by
  intro c hc
  rcases List.mem_append.mp hc with hc | hc
  · rcases List.mem_append.mp hc with hc | hc
    · exact isPySpace_eq_false_of_isDigit
        (natToDigits_all_digits (a / 10) c hc)
    · simp only [List.mem_singleton] at hc
      subst hc
      decide
  · simp only [List.mem_singleton] at hc
    subst hc
    exact isPySpace_eq_false_of_isDigit (ofNat_digit_isDigit (a % 10) hd)

/-- Normalizing an already-canonical one-decimal value returns it
unchanged. -/
theorem format_rating_1_oneDecimal (n : ℤ) :
    format_rating_1 (oneDecimalComma n) = oneDecimalComma n := by
  have hd : n.natAbs % 10 < 10 := Nat.mod_lt _ (by omega)
  have hadm : n.natAbs / 10 * 10 + n.natAbs % 10 = n.natAbs := by
    have := Nat.div_add_mod n.natAbs 10
    omega
  by_cases hn : n < 0
  · have habs : -(n.natAbs : ℤ) = n := by omega
    unfold oneDecimalComma
    rw [if_pos hn]
    unfold format_rating_1
    have hdata :
        (String.mk (['-'] ++ natToDigits (n.natAbs / 10) ++ [','] ++
          [Char.ofNat (48 + n.natAbs % 10)])).data =
        ['-'] ++ natToDigits (n.natAbs / 10) ++ [','] ++
          [Char.ofNat (48 + n.natAbs % 10)] := rfl
    have hstrip1 : safe_str (String.mk (['-'] ++ natToDigits (n.natAbs / 10)
        ++ [','] ++ [Char.ofNat (48 + n.natAbs % 10)])) =
        String.mk (['-'] ++ natToDigits (n.natAbs / 10) ++ [','] ++
          [Char.ofNat (48 + n.natAbs % 10)]) := by
      unfold safe_str
      rw [hdata, stripChars_eq_self_of_not_space]
      intro c hc
      rcases List.mem_append.mp hc with hc | hc
      · rcases List.mem_append.mp hc with hc | hc
        · rcases List.mem_append.mp hc with hc | hc
          · simp only [List.mem_singleton] at hc
            subst hc
            decide
          · exact isPySpace_eq_false_of_isDigit
              (natToDigits_all_digits (n.natAbs / 10) c hc)
        · simp only [List.mem_singleton] at hc
          subst hc
          decide
      · simp only [List.mem_singleton] at hc
        subst hc
        exact isPySpace_eq_false_of_isDigit
          (ofNat_digit_isDigit (n.natAbs % 10) hd)
    rw [hstrip1, hdata]
    have hmap : (['-'] ++ natToDigits (n.natAbs / 10) ++ [','] ++
        [Char.ofNat (48 + n.natAbs % 10)]).map commaToDot =
        '-' :: (natToDigits (n.natAbs / 10) ++ '.' ::
          [Char.ofNat (48 + n.natAbs % 10)]) := by
      have h2 := map_commaToDot_canonical n.natAbs hd
      simp only [List.append_assoc, List.singleton_append, List.cons_append,
        List.nil_append, List.map_cons] at h2 ⊢
      rw [show commaToDot '-' = '-' from rfl, h2]
    rw [hmap]
    rw [if_neg (stringMk_ne_empty (List.cons_ne_nil _ _))]
    have hparse : pyFloatOfString (String.mk ('-' ::
        (natToDigits (n.natAbs / 10) ++ '.' ::
          [Char.ofNat (48 + n.natAbs % 10)]))) =
        some (PyFloat.finite
          (-((n.natAbs / 10 * 10 + n.natAbs % 10 : Nat) : ℤ)) (-1)) := by
      unfold pyFloatOfString
      rw [show (String.mk ('-' :: (natToDigits (n.natAbs / 10) ++ '.' ::
          [Char.ofNat (48 + n.natAbs % 10)]))).data =
          '-' :: (natToDigits (n.natAbs / 10) ++ '.' ::
            [Char.ofNat (48 + n.natAbs % 10)]) from rfl]
      rw [stripChars_eq_self_of_not_space]
      · exact parsePyFloatCore_canonical_neg (n.natAbs / 10)
          (n.natAbs % 10) hd
      · intro c hc
        simp only [List.mem_cons] at hc
        rcases hc with rfl | hc
        · decide
        · exact nospace_canonical_dot n.natAbs hd c hc
    rw [hparse]
    dsimp only [format_1f]
    rw [show (-1 : ℤ) + 1 = 0 from rfl, rheScaled_exp_zero, hadm, habs]
    unfold oneDecimalComma
    rw [if_pos hn]
  · have habs : ((n.natAbs : ℤ)) = n := Int.natAbs_of_nonneg (by omega)
    unfold oneDecimalComma
    rw [if_neg hn]
    unfold format_rating_1
    have hdata :
        (String.mk ([] ++ natToDigits (n.natAbs / 10) ++ [','] ++
          [Char.ofNat (48 + n.natAbs % 10)])).data =
        natToDigits (n.natAbs / 10) ++ [','] ++
          [Char.ofNat (48 + n.natAbs % 10)] := by
      simp
    have hstrip1 : safe_str (String.mk ([] ++ natToDigits (n.natAbs / 10)
        ++ [','] ++ [Char.ofNat (48 + n.natAbs % 10)])) =
        String.mk (natToDigits (n.natAbs / 10) ++ [','] ++
          [Char.ofNat (48 + n.natAbs % 10)]) := by
      unfold safe_str
      rw [hdata, stripChars_eq_self_of_not_space
        (nospace_canonical_comma n.natAbs hd)]
    rw [hstrip1]
    rw [show (String.mk (natToDigits (n.natAbs / 10) ++ [','] ++
        [Char.ofNat (48 + n.natAbs % 10)])).data =
        natToDigits (n.natAbs / 10) ++ [','] ++
          [Char.ofNat (48 + n.natAbs % 10)] from rfl]
    rw [map_commaToDot_canonical n.natAbs hd]
    rw [if_neg (stringMk_ne_empty (by
      intro hc
      exact natToDigits_ne_nil (n.natAbs / 10)
        (List.append_eq_nil.mp hc).1))]
    have hparse : pyFloatOfString (String.mk (natToDigits (n.natAbs / 10) ++
        '.' :: [Char.ofNat (48 + n.natAbs % 10)])) =
        some (PyFloat.finite
          ((n.natAbs / 10 * 10 + n.natAbs % 10 : Nat) : ℤ) (-1)) := by
      unfold pyFloatOfString
      rw [show (String.mk (natToDigits (n.natAbs / 10) ++ '.' ::
          [Char.ofNat (48 + n.natAbs % 10)])).data =
          natToDigits (n.natAbs / 10) ++ '.' ::
            [Char.ofNat (48 + n.natAbs % 10)] from rfl]
      rw [stripChars_eq_self_of_not_space (nospace_canonical_dot n.natAbs hd)]
      exact parsePyFloatCore_canonical_pos (n.natAbs / 10) (n.natAbs % 10) hd
    rw [hparse]
    dsimp only [format_1f]
    rw [show (-1 : ℤ) + 1 = 0 from rfl, rheScaled_exp_zero, hadm, habs]
    unfold oneDecimalComma
    rw [if_neg hn]

/-- Every output of `_format_rating_1` is empty, one of the non-finite
float names, or a canonical one-decimal comma form. -/
theorem format_rating_1_cases (s : String) :
    format_rating_1 s = "" ∨ format_rating_1 s = "nan" ∨
    format_rating_1 s = "inf" ∨ format_rating_1 s = "-inf" ∨
    ∃ n : ℤ, format_rating_1 s = oneDecimalComma n := by
  unfold format_rating_1
  by_cases h0 : String.mk ((safe_str s).data.map commaToDot) = ""
  · rw [if_pos h0]
    left
    rfl
  · rw [if_neg h0]
    cases hp : pyFloatOfString (String.mk ((safe_str s).data.map commaToDot)) with
    | none => left; rfl
    | some pf =>
      cases pf with
      | finite m e =>
        right; right; right; right
        exact ⟨rheScaled m (e + 1), rfl⟩
      | inf => right; right; left; rfl
      | ninf => right; right; right; left; rfl
      | nan => right; left; rfl

theorem takeWhile_append_all {p : Char → Bool} {l1 l2 : List Char}
    (h : ∀ c ∈ l1, p c = true) :
    (l1 ++ l2).takeWhile p = l1 ++ l2.takeWhile p := by
  induction l1 with
  | nil => simp
  | cons a t ih =>
    rw [List.cons_append, List.takeWhile_cons, if_pos (h a (by simp)),
      ih (fun c hc => h c (by simp [hc])), List.cons_append]

theorem dropWhile_append_all {p : Char → Bool} {l1 l2 : List Char}
    (h : ∀ c ∈ l1, p c = true) :
    (l1 ++ l2).dropWhile p = l2.dropWhile p := by
  induction l1 with
  | nil => simp
  | cons a t ih =>
    rw [List.cons_append, List.dropWhile_cons, if_pos (h a (by simp)),
      ih (fun c hc => h c (by simp [hc]))]

theorem isOneDecimalDigits_canonical {D : List Char} (dc : Char)
    (hD : ∀ c ∈ D, c.isDigit = true) (hne : D ≠ [])
    (hdc : dc.isDigit = true) :
    isOneDecimalDigits (D ++ [','] ++ [dc]) = true := by
  unfold isOneDecimalDigits
  rw [List.append_assoc, takeWhile_append_all hD, dropWhile_append_all hD]
  rw [show ((([','] ++ [dc]) : List Char).takeWhile Char.isDigit) = []
    from by rw [List.singleton_append, List.takeWhile_cons, if_neg (by decide)]]
  rw [show ((([','] ++ [dc]) : List Char).dropWhile Char.isDigit) = [',', dc]
    from by rw [List.singleton_append, List.dropWhile_cons, if_neg (by decide)]]
  simp only [List.append_nil, hdc]
  simp [hne]

theorem isOneDecimalComma_mk (l : List Char) :
    isOneDecimalComma (String.mk l) =
      isOneDecimalDigits (if l.head? = some '-' then l.tail else l) := rfl

/-- The canonical one-decimal form is accepted by the spec-side shape
checker. -/
theorem isOneDecimalComma_oneDecimal (n : ℤ) :
    isOneDecimalComma (oneDecimalComma n) = true := by
  have hd : n.natAbs % 10 < 10 := Nat.mod_lt _ (by omega)
  have hD : ∀ c ∈ natToDigits (n.natAbs / 10), c.isDigit = true :=
    natToDigits_all_digits _
  have hne : natToDigits (n.natAbs / 10) ≠ [] :=
    natToDigits_ne_nil _
  have hdc : (Char.ofNat (48 + n.natAbs % 10)).isDigit = true :=
    ofNat_digit_isDigit _ hd
  unfold oneDecimalComma
  by_cases hn : n < 0
  · rw [if_pos hn, isOneDecimalComma_mk]
    rw [show ((['-'] ++ natToDigits (n.natAbs / 10) ++ [','] ++
        [Char.ofNat (48 + n.natAbs % 10)]) : List Char) =
        '-' :: (natToDigits (n.natAbs / 10) ++ [','] ++
          [Char.ofNat (48 + n.natAbs % 10)]) from by simp]
    rw [if_pos (by rfl)]
    exact isOneDecimalDigits_canonical _ hD hne hdc
  · rw [if_neg hn, isOneDecimalComma_mk, List.nil_append]
    have hh : ((natToDigits (n.natAbs / 10) ++ [','] ++
        [Char.ofNat (48 + n.natAbs % 10)]) : List Char).head? ≠ some '-' := by
      cases heq : natToDigits (n.natAbs / 10) with
      | nil => exact absurd heq hne
      | cons c0 D2 =>
        have hdig0 : c0.isDigit = true := hD c0 (by rw [heq]; simp)
        simp only [List.cons_append, List.head?_cons]
        exact fun h => digit_ne_of_not_digit hdig0
          (show ('-').isDigit = false by decide) (Option.some.inj h)
    rw [if_neg hh]
    exact isOneDecimalDigits_canonical _ hD hne hdc

/-- C9 (amended): rating normalization is idempotent on every input (in
particular on already-canonical one-decimal values); the two reference
inputs both normalize to `4,9`; and every output is either empty, a
canonical one-decimal comma-separated numeric string, or — for inputs
that Python parses as non-finite floats — one of `nan`/`inf`/`-inf`
(which the claim as stated omits). -/
theorem c9_rating_normalization_amended :
    (∀ s : String, format_rating_1 (format_rating_1 s) = format_rating_1 s) ∧
    format_rating_1 "4.900000095367432" = "4,9" ∧
    format_rating_1 "4,9" = "4,9" ∧
    (∀ s : String,
      format_rating_1 s = "" ∨ format_rating_1 s = "nan" ∨
      format_rating_1 s = "inf" ∨ format_rating_1 s = "-inf" ∨
      ∃ n : ℤ, format_rating_1 s = oneDecimalComma n) ∧
    (∀ n : ℤ, isOneDecimalComma (oneDecimalComma n) = true) := by
  refine ⟨?_, by decide, by decide, format_rating_1_cases,
    isOneDecimalComma_oneDecimal⟩
  intro s
  rcases format_rating_1_cases s with h | h | h | h | ⟨n, h⟩ <;> rw [h]
  · rfl
  · decide
  · decide
  · decide
  · exact format_rating_1_oneDecimal n

/-- C9 counterexample to the claim as stated: the input `"nan"` is
accepted by Python `float`, and `_format_rating_1` returns `"nan"`,
which is neither empty nor a valid one-decimal numeric string. -/
theorem c9_nan_breaks_shape_clause :
    format_rating_1 "nan" = "nan" ∧
    isOneDecimalComma "nan" = false ∧ ("nan" : String) ≠ "" := by
  refine ⟨by decide, by decide, by decide⟩

/-! ## C5: rating/review extraction tiers (`web_enrich.py`)

The four extraction strategies of `enrich_company_from_web` (lines
416-431): JSON-LD parsing (`parse_rating_counts_from_jsonld`), embedded
script-JSON scanning (`parse_rating_counts_from_embedded_json`), the
BeautifulSoup DOM heuristic (`parse_counts_from_dom`, modelled as an
oracle parameter since it runs an external HTML parser), and the
raw-markup regex fallbacks (which the code runs *inside* the first two
parsers, not as a separate last tier).

The regex scanners below transcribe Python `re` semantics for the
concrete patterns in the source: leftmost match, greedy quantifiers,
`re.I` as ASCII case folding, `\s` as ASCII whitespace (`isPySpace`) and
`\d`/`[0-9]` as ASCII digits.  Fuel arguments of recursive scanners are
chosen at the call sites to exceed the number of possible steps for the
given input, so they never run out; they only make the recursion
structural. -/

/-- ASCII case-insensitive character comparison (`re.I`). -/
def lowerEq (a b : Char) : Bool := a.toLower == b.toLower

/-- Case-insensitive literal-prefix test. -/
def startsWithCI : List Char → List Char → Bool
  | [], _ => true
  | _ :: _, [] => false
  | p :: ps, c :: cs => lowerEq p c && startsWithCI ps cs

/-- Case-sensitive literal-prefix test. -/
def startsWithExact : List Char → List Char → Bool
  | [], _ => true
  | _ :: _, [] => false
  | p :: ps, c :: cs => (p == c) && startsWithExact ps cs

/-- Split at the first (case-insensitive) occurrence of `pat`: returns the
part before it and the part after it. -/
def splitUntilCI (pat : List Char) : List Char → Option (List Char × List Char)
  | [] => if pat = [] then some ([], []) else none
  | c :: cs =>
    if startsWithCI pat (c :: cs) then some ([], (c :: cs).drop pat.length)
    else
      match splitUntilCI pat cs with
      | some (pre, post) => some (c :: pre, post)
      | none => none

/-- `['\"]` of the script-tag patterns: either quote character. -/
def isQuoteCh (c : Char) : Bool := c == '"' || c == Char.ofNat 39

/-- Does `l` start with `type=` quote `ty` quote (case-insensitive)?  This
is the `type=['\"]...['\"]` core of the script-tag regexes. -/
def typeAttrAt (ty : List Char) (l : List Char) : Bool :=
  if startsWithCI ("type=".data) l then
    match l.drop 5 with
    | q :: r2 =>
      isQuoteCh q && startsWithCI ty r2 &&
        (match r2.drop ty.length with
         | q2 :: _ => isQuoteCh q2
         | [] => false)
    | [] => false
  else false

/-- `[^>]+type=...`: the attribute must appear at some offset `≥ 1` inside
the tag segment (at least one character is consumed by `[^>]+`). -/
def hasTypeAttrScan (ty : List Char) : List Char → Bool
  | [] => false
  | _ :: rest => typeAttrAt ty rest || hasTypeAttrScan ty rest

/-- Match `<script[^>]+type=['\"]ty['\"][^>]*>` at the head of `l`
(case-insensitive); returns the text after the closing `>`. -/
def matchScriptOpen (ty : List Char) (l : List Char) : Option (List Char) :=
  if startsWithCI ("<script".data) l then
    match splitUntilCI ['>'] (l.drop 7) with
    | some (seg, after) => if hasTypeAttrScan ty seg then some after else none
    | none => none
  else none

/-- `re.findall` of the script-block pattern: scan left to right, and on a
match capture the lazy `(.*?)` body up to the first `</script>`. -/
def scanScriptBlocksAux (ty : List Char) : Nat → List Char → List (List Char)
  | 0, _ => []
  | _ + 1, [] => []
  | fuel + 1, c :: cs =>
    match matchScriptOpen ty (c :: cs) with
    | some rest =>
      match splitUntilCI ("</script>".data) rest with
      | some (body, after) => body :: scanScriptBlocksAux ty fuel after
      | none => scanScriptBlocksAux ty fuel cs
    | none => scanScriptBlocksAux ty fuel cs

def scanScriptBlocks (ty : List Char) (l : List Char) : List (List Char) :=
  scanScriptBlocksAux ty l.length l

/-- The `[A-Z0-9_]` class of the `window.__...` pattern. -/
def isUpperWord (c : Char) : Bool :=
  ('A' ≤ c && c ≤ 'Z') || ('0' ≤ c && c ≤ '9') || c == '_'

/-- `\s*;\s*` after the candidate closing brace; returns the text after
the trailing whitespace. -/
def semiAfterWs (l : List Char) : Option (List Char) :=
  match l.dropWhile isPySpace with
  | d :: r2 => if d == ';' then some (r2.dropWhile isPySpace) else none
  | [] => none

/-- The lazy `.*?}` of `({.*?})\s*;\s*`: find the first `}` that is
followed (after whitespace) by `;`; returns the body before that `}` and
the rest after `;` and trailing whitespace. -/
def findBraceClose : List Char → Option (List Char × List Char)
  | [] => none
  | c :: cs =>
    if c == Char.ofNat 125 then
      match semiAfterWs cs with
      | some rest => some ([], rest)
      | none =>
        match findBraceClose cs with
        | some (body, rest) => some (c :: body, rest)
        | none => none
    else
      match findBraceClose cs with
      | some (body, rest) => some (c :: body, rest)
      | none => none

/-- Match `window\.__[A-Z0-9_]{3,}\s*=\s*({.*?})\s*;\s*` at the head of
`l` (case-sensitive); returns the brace-delimited group and the rest. -/
def matchWindowState (l : List Char) : Option (List Char × List Char) :=
  if startsWithExact ("window.__".data) l then
    let r := l.drop 9
    let name := r.takeWhile isUpperWord
    if 3 ≤ name.length then
      match (r.drop name.length).dropWhile isPySpace with
      | c :: r3 =>
        if c == '=' then
          match r3.dropWhile isPySpace with
          | b :: r5 =>
            if b == Char.ofNat 123 then
              match findBraceClose r5 with
              | some (body, rest) =>
                some (Char.ofNat 123 :: body ++ [Char.ofNat 125], rest)
              | none => none
            else none
          | [] => none
        else none
      | [] => none
    else none
  else none

/-- `re.findall` of the `window.__STATE__ = {...};` pattern. -/
def scanWindowObjsAux : Nat → List Char → List (List Char)
  | 0, _ => []
  | _ + 1, [] => []
  | fuel + 1, c :: cs =>
    match matchWindowState (c :: cs) with
    | some (grp, rest) => grp :: scanWindowObjsAux fuel rest
    | none => scanWindowObjsAux fuel cs

def scanWindowObjs (l : List Char) : List (List Char) :=
  scanWindowObjsAux l.length l

/-- Python values produced by `json.loads`: `None`, `bool`, `str`, `int`,
`float`, `list`, `dict` (insertion-ordered, unique keys). -/
inductive JValue where
  | jnull : JValue
  | jbool : Bool → JValue
  | jstr : List Char → JValue
  | jint : ℤ → JValue
  | jfloat : PyFloat → JValue
  | jarr : List JValue → JValue
  | jobj : List (String × JValue) → JValue

def isJNull : JValue → Bool
  | .jnull => true
  | _ => false

/-- `dict` insertion with a possibly repeated key: the position of the
first occurrence is kept, the value of the last one wins. -/
def insertObjKey : List (String × JValue) → String → JValue → List (String × JValue)
  | [], k, v => [(k, v)]
  | (k0, v0) :: rest, k, v =>
    if k0 = k then (k0, v) :: rest else (k0, v0) :: insertObjKey rest k v

/-- `dict.get`. -/
def objGet : List (String × JValue) → String → Option JValue
  | [], _ => none
  | (k0, v0) :: rest, k => if k0 = k then some v0 else objGet rest k

/-- JSON inter-token whitespace (`json` module: space, tab, newline,
carriage return). -/
def jsonWs (c : Char) : Bool := c == ' ' || c == '\t' || c == '\n' || c == '\r'

def skipWs (l : List Char) : List Char := l.dropWhile jsonWs

def hexVal (c : Char) : Option Nat :=
  if '0' ≤ c && c ≤ '9' then some (c.toNat - 48)
  else if 'a' ≤ c && c ≤ 'f' then some (c.toNat - 87)
  else if 'A' ≤ c && c ≤ 'F' then some (c.toNat - 70)
  else none

def parseHex4 : List Char → Option (Nat × List Char)
  | a :: b :: c :: d :: rest => do
    let x ← hexVal a
    let y ← hexVal b
    let z ← hexVal c
    let w ← hexVal d
    some (((x * 16 + y) * 16 + z) * 16 + w, rest)
  | _ => none

/-- JSON string body after the opening quote: standard escapes, `\uXXXX`
with surrogate-pair combination (a lone surrogate, unrepresentable as a
unicode scalar, is modelled as U+FFFD), and strict rejection of raw
control characters. -/
def parseJStringAux : Nat → List Char → List Char → Option (List Char × List Char)
  | 0, _, _ => none
  | fuel + 1, acc, l =>
    match l with
    | [] => none
    | c :: cs =>
      if c == '"' then some (acc.reverse, cs)
      else if c == '\\' then
        match cs with
        | e :: cs2 =>
          if e == '"' then parseJStringAux fuel ('"' :: acc) cs2
          else if e == '\\' then parseJStringAux fuel ('\\' :: acc) cs2
          else if e == '/' then parseJStringAux fuel ('/' :: acc) cs2
          else if e == 'b' then parseJStringAux fuel (Char.ofNat 8 :: acc) cs2
          else if e == 'f' then parseJStringAux fuel (Char.ofNat 12 :: acc) cs2
          else if e == 'n' then parseJStringAux fuel ('\n' :: acc) cs2
          else if e == 'r' then parseJStringAux fuel ('\r' :: acc) cs2
          else if e == 't' then parseJStringAux fuel ('\t' :: acc) cs2
          else if e == 'u' then
            match parseHex4 cs2 with
            | some (n, cs3) =>
              if 0xD800 ≤ n && n < 0xDC00 then
                match cs3 with
                | u1 :: u2 :: cs4 =>
                  if u1 == '\\' && u2 == 'u' then
                    match parseHex4 cs4 with
                    | some (m, cs5) =>
                      if 0xDC00 ≤ m && m < 0xE000 then
                        parseJStringAux fuel
                          (Char.ofNat (0x10000 + (n - 0xD800) * 0x400 + (m - 0xDC00)) :: acc) cs5
                      else parseJStringAux fuel (Char.ofNat 0xFFFD :: acc) cs3
                    | none => parseJStringAux fuel (Char.ofNat 0xFFFD :: acc) cs3
                  else parseJStringAux fuel (Char.ofNat 0xFFFD :: acc) cs3
                | _ => parseJStringAux fuel (Char.ofNat 0xFFFD :: acc) cs3
              else if 0xDC00 ≤ n && n < 0xE000 then
                parseJStringAux fuel (Char.ofNat 0xFFFD :: acc) cs3
              else parseJStringAux fuel (Char.ofNat n :: acc) cs3
            | none => none
          else none
        | [] => none
      else if c.toNat < 32 then none
      else parseJStringAux fuel (c :: acc) cs

def digitsToNat (l : List Char) : Nat :=
  l.foldl (fun a c => a * 10 + (c.toNat - 48)) 0

/-- `(\.\d+)?` of the JSON number grammar: taken only if a digit follows
the dot. -/
def jNumFrac (r : List Char) : Option (List Char × List Char) :=
  if r.head? = some '.' then
    match r.tail.takeWhile Char.isDigit with
    | [] => none
    | ds => some (ds, r.tail.dropWhile Char.isDigit)
  else none

/-- `([eE][-+]?\d+)?` of the JSON number grammar. -/
def jNumExp (r : List Char) : Option (ℤ × List Char) :=
  match r with
  | e :: rest =>
    if e == 'e' || e == 'E' then
      match rest with
      | s :: rest2 =>
        if s == '+' then
          match rest2.takeWhile Char.isDigit with
          | [] => none
          | ds => some ((digitsToNat ds : ℤ), rest2.dropWhile Char.isDigit)
        else if s == '-' then
          match rest2.takeWhile Char.isDigit with
          | [] => none
          | ds => some (-(digitsToNat ds : ℤ), rest2.dropWhile Char.isDigit)
        else
          match rest.takeWhile Char.isDigit with
          | [] => none
          | ds => some ((digitsToNat ds : ℤ), rest.dropWhile Char.isDigit)
      | [] => none
    else none
  | [] => none

/-- Assemble a JSON number: `int` when there is neither fraction nor
exponent, else a `float` holding the exact decimal value. -/
def mkJNum (neg : Bool) (ip : ℤ) (fr : List Char) (ex : ℤ) (isFloat : Bool) : JValue :=
  let mant : ℤ := ip * 10 ^ fr.length + (digitsToNat fr : ℤ)
  let sm := if neg then -mant else mant
  if isFloat then .jfloat (.finite sm (ex - fr.length)) else .jint sm

/-- JSON number after the optional minus sign: integer part `0` alone or
`[1-9]\d*` (a longer run after a leading `0` ends the number at the `0`,
as the Python scanner does), then optional fraction and exponent. -/
def parseJNumAfterSign (neg : Bool) (r1 : List Char) : Option (JValue × List Char) :=
  match r1 with
  | c :: cs =>
    if !c.isDigit then none
    else
      let ip : ℤ := if c == '0' then 0 else (digitsToNat (r1.takeWhile Char.isDigit) : ℤ)
      let r2 := if c == '0' then cs else r1.dropWhile Char.isDigit
      match jNumFrac r2 with
      | some (fr, r3) =>
        match jNumExp r3 with
        | some (ex, r4) => some (mkJNum neg ip fr ex true, r4)
        | none => some (mkJNum neg ip fr 0 true, r3)
      | none =>
        match jNumExp r2 with
        | some (ex, r4) => some (mkJNum neg ip [] ex true, r4)
        | none => some (mkJNum neg ip [] 0 false, r2)
  | [] => none

/-- An atomic JSON value (string, constant, or number) at the head of `l`
(whitespace already skipped). -/
def parseJAtom (l : List Char) : Option (JValue × List Char) :=
  match l with
  | [] => none
  | c :: cs =>
    if c == '"' then
      match parseJStringAux (cs.length + 1) [] cs with
      | some (s, r) => some (.jstr s, r)
      | none => none
    else if startsWithExact ("true".data) l then some (.jbool true, l.drop 4)
    else if startsWithExact ("false".data) l then some (.jbool false, l.drop 5)
    else if startsWithExact ("null".data) l then some (.jnull, l.drop 4)
    else if startsWithExact ("NaN".data) l then some (.jfloat .nan, l.drop 3)
    else if startsWithExact ("Infinity".data) l then some (.jfloat .inf, l.drop 8)
    else if startsWithExact ("-Infinity".data) l then some (.jfloat .ninf, l.drop 9)
    else if c == '-' then parseJNumAfterSign true cs
    else parseJNumAfterSign false l

/-- An object key followed by `:` (whitespace around both allowed). -/
def parseJKey (l : List Char) : Option (String × List Char) :=
  match skipWs l with
  | c :: cs =>
    if c == '"' then
      match parseJStringAux (cs.length + 1) [] cs with
      | some (s, r) =>
        match skipWs r with
        | d :: ds => if d == ':' then some (String.mk s, ds) else none
        | [] => none
      | none => none
    else none
  | [] => none

/-- A frame of the iterative JSON parser: an array or object being
filled, with the pending key for objects. -/
inductive PFrame where
  | arrF (acc : List JValue)
  | objF (acc : List (String × JValue)) (key : String)

/-- Shift-reduce JSON parser: with `none` pending, parse a value (pushing
a frame on `[` / `{`); with `some v` pending, fold `v` into the top frame
and read the following `,` or closing bracket. -/
def parseJSteps : Nat → List PFrame → Option JValue → List Char → Option (JValue × List Char)
  | 0, _, _, _ => none
  | fuel + 1, stack, none, l =>
    match skipWs l with
    | [] => none
    | c :: cs =>
      if c == '[' then
        match skipWs cs with
        | d :: ds =>
          if d == ']' then parseJSteps fuel stack (some (.jarr [])) ds
          else parseJSteps fuel (.arrF [] :: stack) none (d :: ds)
        | [] => none
      else if c == Char.ofNat 123 then
        match skipWs cs with
        | d :: ds =>
          if d == Char.ofNat 125 then parseJSteps fuel stack (some (.jobj [])) ds
          else
            match parseJKey (d :: ds) with
            | some (k, r) => parseJSteps fuel (.objF [] k :: stack) none r
            | none => none
        | [] => none
      else
        match parseJAtom (c :: cs) with
        | some (v, r) => parseJSteps fuel stack (some v) r
        | none => none
  | fuel + 1, stack, some v, l =>
    match stack with
    | [] => some (v, l)
    | .arrF acc :: s =>
      match skipWs l with
      | c :: cs =>
        if c == ',' then parseJSteps fuel (.arrF (acc ++ [v]) :: s) none cs
        else if c == ']' then parseJSteps fuel s (some (.jarr (acc ++ [v]))) cs
        else none
      | [] => none
    | .objF acc k :: s =>
      match skipWs l with
      | c :: cs =>
        if c == ',' then
          match parseJKey cs with
          | some (k2, r) => parseJSteps fuel (.objF (insertObjKey acc k v) k2 :: s) none r
          | none => none
        else if c == Char.ofNat 125 then
          parseJSteps fuel s (some (.jobj (insertObjKey acc k v))) cs
        else none
      | [] => none

/-- `json.loads`: parse one document, allow surrounding whitespace,
reject trailing data; any error is `none` (the callers skip the block). -/
def json_loads (s : String) : Option JValue :=
  match parseJSteps (4 * (s.data.length + 1)) [] none s.data with
  | some (v, rest) => if skipWs rest = [] then some v else none
  | none => none

/-- Worklist item of `walk_find`: a value still to descend into, or a
dict entry whose key is still to be compared. -/
inductive WItem where
  | wval (v : JValue)
  | wentry (k : String) (v : JValue)

/-- `walk_find` over an explicit worklist, preserving the Python
depth-first order: for each dict entry, the value on a key match, then
the finds inside that value, then the following entries. -/
def walkFindAux (key : String) : Nat → List WItem → List JValue
  | 0, _ => []
  | _ + 1, [] => []
  | fuel + 1, .wval v :: rest =>
    match v with
    | .jobj kvs => walkFindAux key fuel (kvs.map (fun p => .wentry p.1 p.2) ++ rest)
    | .jarr xs => walkFindAux key fuel (xs.map .wval ++ rest)
    | _ => walkFindAux key fuel rest
  | fuel + 1, .wentry k v :: rest =>
    (if k = key then [v] else []) ++ walkFindAux key fuel (.wval v :: rest)

def walk_find (F : Nat) (v : JValue) (key : String) : List JValue :=
  walkFindAux key F [.wval v]

def intToChars (n : ℤ) : List Char :=
  (if n < 0 then ['-'] else []) ++ natToDigits n.natAbs

/-- Factor powers of ten out of the mantissa (fuel ≥ digit count). -/
def stripZeroFactors : Nat → ℤ → ℤ → ℤ × ℤ
  | 0, m, e => (m, e)
  | fuel + 1, m, e =>
    if m ≠ 0 ∧ m % 10 = 0 then stripZeroFactors fuel (m / 10) (e + 1) else (m, e)

/-- Python `repr` of a float, on the exact-decimal model: `nan`, `inf`,
`-inf`, or a plain decimal with at least one fractional digit.  This is
exact for values whose shortest form CPython prints without an exponent;
the scientific-notation forms used for very large or very small
magnitudes are approximated by the plain expansion. -/
def pyFloatRepr : PyFloat → List Char
  | .nan => "nan".data
  | .inf => "inf".data
  | .ninf => "-inf".data
  | .finite m e =>
    if m = 0 then "0.0".data
    else
      match stripZeroFactors (natToDigits m.natAbs).length m e with
      | (m2, e2) =>
        (if m2 < 0 then ['-'] else []) ++
          (if 0 ≤ e2 then
            natToDigits m2.natAbs ++ List.replicate e2.toNat '0' ++ ".0".data
          else
            (if (-e2).toNat < (natToDigits m2.natAbs).length then
              (natToDigits m2.natAbs).take ((natToDigits m2.natAbs).length - (-e2).toNat)
                ++ '.' :: (natToDigits m2.natAbs).drop
                  ((natToDigits m2.natAbs).length - (-e2).toNat)
            else
              "0.".data ++ List.replicate ((-e2).toNat - (natToDigits m2.natAbs).length) '0'
                ++ natToDigits m2.natAbs))

/-- Worklist item of the `str()` printer for containers. -/
inductive SItem where
  | sval (v : JValue)
  | raw (s : List Char)

/-- Python `str()` of a JSON-decoded value, via an explicit worklist:
scalars as Python prints them, containers in `repr` style (string
elements quoted with single quotes; escaping inside `repr` of strings is
not modelled). -/
def pyStrAux : Nat → List SItem → List Char → List Char
  | 0, _, acc => acc
  | _ + 1, [], acc => acc
  | fuel + 1, .raw s :: rest, acc => pyStrAux fuel rest (acc ++ s)
  | fuel + 1, .sval v :: rest, acc =>
    match v with
    | .jnull => pyStrAux fuel rest (acc ++ "None".data)
    | .jbool b => pyStrAux fuel rest (acc ++ (if b then "True".data else "False".data))
    | .jint n => pyStrAux fuel rest (acc ++ intToChars n)
    | .jfloat f => pyStrAux fuel rest (acc ++ pyFloatRepr f)
    | .jstr s => pyStrAux fuel rest (acc ++ (Char.ofNat 39 :: s ++ [Char.ofNat 39]))
    | .jarr xs =>
      pyStrAux fuel
        ((.raw ['[']) ::
          (List.intersperse [SItem.raw (", ".data)]
            (xs.map (fun x => [SItem.sval x]))).flatten
          ++ (.raw [']']) :: rest) acc
    | .jobj kvs =>
      pyStrAux fuel
        ((.raw [Char.ofNat 123]) ::
          (List.intersperse [SItem.raw (", ".data)]
            (kvs.map (fun p =>
              [SItem.raw (Char.ofNat 39 :: p.1.data ++ Char.ofNat 39 :: ": ".data),
               SItem.sval p.2]))).flatten
          ++ (.raw [Char.ofNat 125]) :: rest) acc

/-- `utils.safe_str` on a JSON-decoded value: `None` becomes the empty
string, strings are stripped, everything else is `str(x).strip()`. -/
def pySafeStr (F : Nat) (v : JValue) : String :=
  match v with
  | .jnull => ""
  | .jstr s => String.mk (stripChars s)
  | v => String.mk (stripChars (pyStrAux F [.sval v] []))

/-- The value group `([0-9]+(?:[.,][0-9]+)?)` at the head of `l`. -/
def matchFloatGroup (l : List Char) : Option (List Char) :=
  match l.takeWhile Char.isDigit with
  | [] => none
  | d1 =>
    match l.dropWhile Char.isDigit with
    | c :: cs =>
      if c == '.' || c == ',' then
        match cs.takeWhile Char.isDigit with
        | [] => some d1
        | d2 => some (d1 ++ c :: d2)
      else some d1
    | [] => some d1

/-- The count group `(\d{1,10})` at the head of `l` (greedy, capped at
ten digits). -/
def matchCountGroup (l : List Char) : Option (List Char) :=
  match l.takeWhile Char.isDigit with
  | [] => none
  | d1 => some (d1.take 10)

/-- Match `"key"\s*:\s*"?(group)"?` (case-insensitive) at the head of
`l`; the optional quote is consumed exactly when digits follow it. -/
def keyNumAt (key : List Char) (countStyle : Bool) (l : List Char) : Option (List Char) :=
  if startsWithCI ('"' :: key ++ ['"']) l then
    match (l.drop (key.length + 2)).dropWhile isPySpace with
    | c :: cs =>
      if c == ':' then
        let r2 := cs.dropWhile isPySpace
        let r3 := if r2.head? = some '"' then r2.tail else r2
        if countStyle then matchCountGroup r3 else matchFloatGroup r3
      else none
    | [] => none
  else none

/-- `re.search` of the keyed-number patterns: leftmost match wins. -/
def searchKeyNum (key : List Char) (countStyle : Bool) : List Char → Option (List Char)
  | [] => none
  | c :: cs =>
    match keyNumAt key countStyle (c :: cs) with
    | some g => some g
    | none => searchKeyNum key countStyle cs

/-- The `rating_value` regex fallback:
`_RE_RATING_VALUE.search(html) or _RE_RATING_ALT.search(html)`, the
matched group fed through `_format_rating_1`; empty when neither
matches. -/
def regex_rating_value (l : List Char) : String :=
  match searchKeyNum ("ratingValue".data) false l with
  | some g => format_rating_1 (String.mk g)
  | none =>
    match searchKeyNum ("rating".data) false l with
    | some g => format_rating_1 (String.mk g)
    | none => ""

/-- The `rating_count` regex fallback:
`_RE_RATING_COUNT.search(html) or _RE_RATINGS_COUNT_ALT.search(html)`. -/
def regex_rating_count (l : List Char) : String :=
  match searchKeyNum ("ratingCount".data) true l with
  | some g => String.mk (stripChars g)
  | none =>
    match searchKeyNum ("ratingsCount".data) true l with
    | some g => String.mk (stripChars g)
    | none => ""

/-- The `review_count` regex fallback:
`_RE_REVIEW_COUNT.search(html) or _RE_REVIEWS_ALT.search(html)`. -/
def regex_review_count (l : List Char) : String :=
  match searchKeyNum ("reviewCount".data) true l with
  | some g => String.mk (stripChars g)
  | none =>
    match searchKeyNum ("reviewsCount".data) true l with
    | some g => String.mk (stripChars g)
    | none => ""

/-- `extract_jsonld_blocks`: every `application/ld+json` script body,
stripped, the ones `json.loads` accepts. -/
def extract_jsonld_blocks (html : String) : List JValue :=
  (scanScriptBlocks ("application/ld+json".data) html.data).filterMap
    (fun b =>
      match stripChars b with
      | [] => none
      | b2 => json_loads (String.mk b2))

/-- `extract_embedded_json_objects`: `application/json` script bodies
first, then `window.__STATE__ = {...};` groups. -/
def extract_embedded_json_objects (html : String) : List JValue :=
  (scanScriptBlocks ("application/json".data) html.data).filterMap
    (fun b =>
      match stripChars b with
      | [] => none
      | b2 => json_loads (String.mk b2))
  ++ (scanWindowObjs html.data).filterMap
    (fun b =>
      match stripChars b with
      | [] => none
      | b2 => json_loads (String.mk b2))

/-- One `aggregateRating` dict of the JSON-LD loop: each still-empty
field takes the dict entry when it is present and not `None`. -/
def aggUpdate (F : Nat) (acc : String × String × String) (agg : JValue) :
    String × String × String :=
  match agg with
  | .jobj kvs =>
    (
      (if acc.1 = "" then
        match objGet kvs "ratingValue" with
        | some v => if isJNull v then acc.1 else format_rating_1 (pySafeStr F v)
        | none => acc.1
      else acc.1),
      (if acc.2.1 = "" then
        match objGet kvs "ratingCount" with
        | some v => if isJNull v then acc.2.1 else pySafeStr F v
        | none => acc.2.1
      else acc.2.1),
      (if acc.2.2 = "" then
        match objGet kvs "reviewCount" with
        | some v => if isJNull v then acc.2.2 else pySafeStr F v
        | none => acc.2.2
      else acc.2.2))
  | _ => acc

/-- The pure JSON-LD pass of `parse_rating_counts_from_jsonld` (the loop
over blocks before the regex fallback). -/
def parse_jsonld_base (html : String) : String × String × String :=
  (extract_jsonld_blocks html).foldl
    (fun acc o =>
      (walk_find (8 * (html.data.length + 1)) o "aggregateRating").foldl
        (aggUpdate (8 * (html.data.length + 1))) acc)
    ("", "", "")

/-- `parse_rating_counts_from_jsonld`: the JSON-LD loop, then the regex
fallback applied to every still-empty field. -/
def parse_rating_counts_from_jsonld (html : String) : String × String × String :=
  (if (parse_jsonld_base html).1 = "" then regex_rating_value html.data
   else (parse_jsonld_base html).1,
   if (parse_jsonld_base html).2.1 = "" then regex_rating_count html.data
   else (parse_jsonld_base html).2.1,
   if (parse_jsonld_base html).2.2 = "" then regex_review_count html.data
   else (parse_jsonld_base html).2.2)

/-- First value of the list whose `_format_rating_1` is non-empty. -/
def firstFmtRating (F : Nat) : List JValue → String
  | [] => ""
  | v :: rest =>
    match format_rating_1 (pySafeStr F v) with
    | "" => firstFmtRating F rest
    | s => s

/-- First value of the list whose `safe_str` is a digit string. -/
def firstDigitStr (F : Nat) : List JValue → String
  | [] => ""
  | v :: rest =>
    if (pySafeStr F v).data ≠ [] ∧ (pySafeStr F v).data.all Char.isDigit then
      pySafeStr F v
    else firstDigitStr F rest

/-- One embedded object of `parse_rating_counts_from_embedded_json`, in
the source order of the key probes: `ratingValue`, `reviewCount`,
`reviewsCount`, `ratingCount`, `ratingsCount`, then bare `rating`. -/
def embUpdate (F : Nat) (acc : String × String × String) (obj : JValue) :
    String × String × String :=
  match acc with
  | (rv, rc, cv) =>
    match (if rv = "" then firstFmtRating F (walk_find F obj "ratingValue") else rv) with
    | rv1 =>
      match (if cv = "" then firstDigitStr F (walk_find F obj "reviewCount") else cv) with
      | cv1 =>
        match (if cv1 = "" then firstDigitStr F (walk_find F obj "reviewsCount") else cv1) with
        | cv2 =>
          match (if rc = "" then firstDigitStr F (walk_find F obj "ratingCount") else rc) with
          | rc1 =>
            match (if rc1 = "" then firstDigitStr F (walk_find F obj "ratingsCount") else rc1) with
            | rc2 =>
              ((if rv1 = "" then firstFmtRating F (walk_find F obj "rating") else rv1),
               rc2, cv2)

/-- The embedded-object loop with its early `return` once all three
fields are filled; the Boolean records whether that return fired (it
skips the regex fallback). -/
def embObjLoop (F : Nat) : List JValue → (String × String × String) →
    (String × String × String) × Bool
  | [], acc => (acc, false)
  | obj :: rest, acc =>
    if (embUpdate F acc obj).1 ≠ "" ∧ (embUpdate F acc obj).2.1 ≠ "" ∧
        (embUpdate F acc obj).2.2 ≠ "" then
      (embUpdate F acc obj, true)
    else embObjLoop F rest (embUpdate F acc obj)

/-- The pure embedded-JSON pass (the loop result, before any regex
fallback). -/
def parse_embedded_base (html : String) : String × String × String :=
  (embObjLoop (8 * (html.data.length + 1))
    (extract_embedded_json_objects html) ("", "", "")).1

/-- `parse_rating_counts_from_embedded_json`: the embedded-object loop;
unless the early return fired, the regex fallback fills the still-empty
fields. -/
def parse_rating_counts_from_embedded_json (html : String) : String × String × String :=
  if (embObjLoop (8 * (html.data.length + 1))
      (extract_embedded_json_objects html) ("", "", "")).2 then
    parse_embedded_base html
  else
    (if (parse_embedded_base html).1 = "" then regex_rating_value html.data
     else (parse_embedded_base html).1,
     if (parse_embedded_base html).2.1 = "" then regex_rating_count html.data
     else (parse_embedded_base html).2.1,
     if (parse_embedded_base html).2.2 = "" then regex_review_count html.data
     else (parse_embedded_base html).2.2)

/-- Lines 418-424 of `enrich_company_from_web`: the embedded tier runs
only when some field is still empty, and fills exactly the empty ones
(`x = x or x2`). -/
def mergeTriple (j e : String × String × String) : String × String × String :=
  if j.1 = "" ∨ j.2.1 = "" ∨ j.2.2 = "" then
    (pyOr j.1 e.1, pyOr j.2.1 e.2.1, pyOr j.2.2 e.2.2)
  else j

/-- Lines 416-431 of `enrich_company_from_web`: JSON-LD tier (with its
internal regex fallback), conditional embedded tier (with its internal
regex fallback), then the DOM tier for the two count fields.  The
BeautifulSoup heuristic `parse_counts_from_dom` is the oracle `dom`,
returning `(rating_count, review_count)`. -/
def extract_rating_fields (dom : String → String × String) (html : String) :
    String × String × String :=
  ((mergeTriple (parse_rating_counts_from_jsonld html)
      (parse_rating_counts_from_embedded_json html)).1,
   pyOr (mergeTriple (parse_rating_counts_from_jsonld html)
      (parse_rating_counts_from_embedded_json html)).2.1 (dom html).1,
   pyOr (mergeTriple (parse_rating_counts_from_jsonld html)
      (parse_rating_counts_from_embedded_json html)).2.2 (dom html).2)

/-- Modelled from the spec: run the four strategies in priority order -
(i) structured linked-data parsing, (ii) embedded script-JSON scanning,
(iii) the DOM heuristic (which produces the two count fields), (iv) the
raw-markup regex as last resort - each tier filling only the fields
still empty after the previous tier. -/
def spec_extract_rating_fields (dom : String → String × String) (html : String) :
    String × String × String :=
  match parse_jsonld_base html, parse_embedded_base html, dom html with
  | (rv1, rc1, cv1), (rv2, rc2, cv2), (drc, dcv) =>
    (pyOr (pyOr rv1 rv2) (regex_rating_value html.data),
     pyOr (pyOr (pyOr rc1 rc2) drc) (regex_rating_count html.data),
     pyOr (pyOr (pyOr cv1 cv2) dcv) (regex_review_count html.data))

/-- The DOM oracle of the counterexample: a page on which the
BeautifulSoup heuristic finds nothing. -/
def dom_none : String → String × String := fun _ => ("", "")

/-- Counterexample page: before any script block, plain markup contains
the text `"ratingValue": "3.0"`, and an `application/json` script block
carries `ratingValue` `"4.5"`; there is no JSON-LD block. -/
def h5 : String :=
  "<p>\"ratingValue\": \"3.0\"</p><script type=\"application/json\">\x7b\"ratingValue\": \"4.5\"\x7d</script>"

theorem pyOr_left_nonempty {a : String} (b : String) (h : a ≠ "") : pyOr a b = a := by
  unfold pyOr
  rw [if_neg h]

theorem pyOr_assoc (a b c : String) : pyOr (pyOr a b) c = pyOr a (pyOr b c) := by
  unfold pyOr
  by_cases ha : a = ""
  · rw [if_pos ha, if_pos ha]
  · rw [if_neg ha, if_neg ha, if_neg ha]

/-- If the early return of the embedded-object loop fired, all three
accumulated fields are non-empty. -/
theorem embObjLoop_early_all_filled (F : Nat) (l : List JValue)
    (acc : String × String × String) (h : (embObjLoop F l acc).2 = true) :
    (embObjLoop F l acc).1.1 ≠ "" ∧ (embObjLoop F l acc).1.2.1 ≠ "" ∧
      (embObjLoop F l acc).1.2.2 ≠ "" := by
  induction l generalizing acc with
  | nil => exact absurd h (by simp [embObjLoop])
  | cons obj rest ih =>
    by_cases hc : (embUpdate F acc obj).1 ≠ "" ∧ (embUpdate F acc obj).2.1 ≠ "" ∧
        (embUpdate F acc obj).2.2 ≠ ""
    · simp only [embObjLoop, if_pos hc]
      exact hc
    · simp only [embObjLoop, if_neg hc] at h ⊢
      exact ih _ h

/-- The conditional embedded-tier merge is per-field first-non-empty. -/
theorem mergeTriple_eq_pyOr (j e : String × String × String) :
    mergeTriple j e = (pyOr j.1 e.1, pyOr j.2.1 e.2.1, pyOr j.2.2 e.2.2) := by
  unfold mergeTriple
  by_cases hc : j.1 = "" ∨ j.2.1 = "" ∨ j.2.2 = ""
  · rw [if_pos hc]
  · rw [if_neg hc]
    push_neg at hc
    rw [pyOr_left_nonempty _ hc.1, pyOr_left_nonempty _ hc.2.1,
      pyOr_left_nonempty _ hc.2.2]

/-- C5 (amended): the extraction strategies compose per field as
first-non-empty in the order the code actually runs them.  The raw-markup
regex fallback executes inside the JSON-LD parser, so its value is
consulted right after the structured linked-data pass - before the
embedded script-JSON tier and the DOM tier, not as a last resort; the
embedded parser re-applies the same fallback to its still-empty fields;
and the enrichment composition takes, per field, the JSON-LD tier result,
then the embedded tier result, then (for the two count fields only) the
DOM heuristic. -/
theorem c5_extraction_order_amended :
    (∀ html : String,
      parse_rating_counts_from_jsonld html =
        (pyOr (parse_jsonld_base html).1 (regex_rating_value html.data),
         pyOr (parse_jsonld_base html).2.1 (regex_rating_count html.data),
         pyOr (parse_jsonld_base html).2.2 (regex_review_count html.data))) ∧
    (∀ html : String,
      parse_rating_counts_from_embedded_json html =
        (pyOr (parse_embedded_base html).1 (regex_rating_value html.data),
         pyOr (parse_embedded_base html).2.1 (regex_rating_count html.data),
         pyOr (parse_embedded_base html).2.2 (regex_review_count html.data))) ∧
    (∀ (dom : String → String × String) (html : String),
      extract_rating_fields dom html =
        (pyOr (parse_rating_counts_from_jsonld html).1
           (parse_rating_counts_from_embedded_json html).1,
         pyOr (parse_rating_counts_from_jsonld html).2.1
           (pyOr (parse_rating_counts_from_embedded_json html).2.1 (dom html).1),
         pyOr (parse_rating_counts_from_jsonld html).2.2
           (pyOr (parse_rating_counts_from_embedded_json html).2.2 (dom html).2))) := by
  refine ⟨fun html => rfl, fun html => ?_, fun dom html => ?_⟩
  · unfold parse_rating_counts_from_embedded_json
    by_cases he : (embObjLoop (8 * (html.data.length + 1))
        (extract_embedded_json_objects html) ("", "", "")).2 = true
    · rw [if_pos he]
      obtain ⟨h1, h2, h3⟩ := embObjLoop_early_all_filled _ _ _ he
      have hb1 : (parse_embedded_base html).1 ≠ "" := h1
      have hb2 : (parse_embedded_base html).2.1 ≠ "" := h2
      have hb3 : (parse_embedded_base html).2.2 ≠ "" := h3
      rw [pyOr_left_nonempty _ hb1, pyOr_left_nonempty _ hb2, pyOr_left_nonempty _ hb3]
    · rw [if_neg he]
      rfl
  · unfold extract_rating_fields
    rw [mergeTriple_eq_pyOr]
    rw [pyOr_assoc, pyOr_assoc]

/-- C5 counterexample to the claim as stated: on `h5` the raw-markup
regex (running inside the JSON-LD tier) yields rating `3,0` from plain
markup, preempting the embedded script-JSON tier whose value is `4,5`;
the spec-ordered pipeline, with regex as last resort, returns `4,5`. -/
theorem c5_regex_preempts_spec_order :
    extract_rating_fields dom_none h5 = ("3,0", "", "") ∧
    spec_extract_rating_fields dom_none h5 = ("4,5", "", "") ∧
    extract_rating_fields dom_none h5 ≠ spec_extract_rating_fields dom_none h5 := by
  refine ⟨by decide, by decide, by decide⟩

end YMaps
